import Mathlib

set_option maxRecDepth 2000

/-!
# Verification of the gtfs-sim timetable-to-position resolver

A shallow embedding of the core of `src/gtfs-loader.js` and the
`/vehicles/at/:datetime` handler of `src/server.js`, with theorems settling
the specification claims about them.

Modelling conventions:
* JavaScript `Map`s are association lists `List (String × α)`; `Map.get` is
  `mget` (first matching key), `Map.set` is `mset` (replace in place or
  append), and the `shapes.get(id).push(point)` grouping idiom is `mpush`.
* IEEE-754 numbers are embedded as `ℚ`.  The one transcendental function,
  `haversineDistance` (sin/cos/atan2/sqrt over doubles), is not exactly
  representable in `ℚ`; every definition that calls it therefore takes the
  distance function as an explicit parameter named `haversineDistance`, so
  the definitions read like the source.  The real-number haversine formula
  itself is embedded separately as `haversineReal` and its nonnegativity —
  the only property of `haversineDistance` any claim depends on — is proved
  of it (`haversineReal_nonneg`).
* `parseInt`/`parseFloat` are modelled at the row boundary: numeric CSV
  columns appear as `ℚ`/`Int`/`Nat` fields in the row structures, except the
  `shape_dist_traveled` columns, which the loader deliberately ignores and
  which are therefore kept as raw `String`s so that ignoring them is visible.
* `String.toNat?.getD 0` models `parseInt` on the digit strings the claims
  quantify over.
-/

namespace GTFS

/-! ## Association-list model of JavaScript `Map` -/

/-- `Map.get`: the value at the (unique, in a JavaScript `Map`) occurrence of
the key. -/
def mget {α : Type} : List (String × α) → String → Option α
  | [], _ => none
  | p :: m, k => if p.1 = k then some p.2 else mget m k

/-- `Map.set`: replace the value in place if the key is present, else append
at the end (JavaScript `Map` insertion-order semantics). -/
def mset {α : Type} : List (String × α) → String → α → List (String × α)
  | [], k, v => [(k, v)]
  | p :: m, k, v => if p.1 = k then (k, v) :: m else p :: mset m k v

/-- The `if (!m.has(k)) m.set(k, []); m.get(k).push(v)` grouping idiom:
append `v` to the key's list, creating the entry at the end if absent. -/
def mpush {α : Type} : List (String × List α) → String → α → List (String × List α)
  | [], k, v => [(k, [v])]
  | p :: m, k, v => if p.1 = k then (p.1, p.2 ++ [v]) :: m else p :: mpush m k v

/-! ## Row and entity structures (gtfs-loader.js data model) -/

/-- A `shapes.txt` row after the `parseFloat`/`parseInt` coercions of
`loadShapes`.  `shape_dist_traveled` is kept raw: the loader never reads it. -/
structure ShapeRow where
  shape_id : String
  shape_pt_lat : ℚ
  shape_pt_lon : ℚ
  shape_pt_sequence : Int
  shape_dist_traveled : String
deriving DecidableEq

/-- A shape point before the cumulative-distance post-pass
(`distance: null` in the source). -/
structure RawShapePoint where
  lat : ℚ
  lon : ℚ
  sequence : Int
deriving DecidableEq

/-- A shape point after `loadShapes` computed its cumulative `distance`. -/
structure ShapePoint where
  lat : ℚ
  lon : ℚ
  sequence : Int
  distance : ℚ
deriving DecidableEq

/-- A stop, as stored by `loadStops` (row fields copied verbatim). -/
structure Stop where
  stop_id : String
  stop_name : String
  stop_lat : ℚ
  stop_lon : ℚ
  stop_code : String
  stop_desc : String
  zone_id : String
  stop_url : String
  location_type : String
  parent_station : String
  wheelchair_boarding : String
  stop_timezone : String
  platform_code : String
  tts_stop_name : String
deriving DecidableEq

/-- A route, as stored by `loadRoutes` (row fields copied verbatim). -/
structure Route where
  route_id : String
  agency_id : String
  route_short_name : String
  route_long_name : String
  route_type : String
  route_desc : String
  route_url : String
  route_color : String
  route_text_color : String
  network_id : String
  route_sort_order : String
deriving DecidableEq

/-- A trip, as stored by `loadTrips` (row fields copied verbatim).
A missing/empty `shape_id` column is the falsy value `""`. -/
structure Trip where
  trip_id : String
  route_id : String
  service_id : String
  trip_short_name : String
  trip_headsign : String
  direction_id : String
  block_id : String
  shape_id : String
  wheelchair_accessible : String
  drt_advance_book_min : String
  bikes_allowed : String
  fare_id : String
  peak_offpeak : String
  boarding_type : String
deriving DecidableEq

/-- A `calendar.txt` row (weekday columns are the raw `"1"`/`"0"` strings). -/
structure CalendarRow where
  service_id : String
  monday : String
  tuesday : String
  wednesday : String
  thursday : String
  friday : String
  saturday : String
  sunday : String
  start_date : String
  end_date : String
deriving DecidableEq

/-- A calendar entry as stored by `loadCalendar` (`row.monday === '1'` etc.). -/
structure CalendarEntry where
  service_id : String
  monday : Bool
  tuesday : Bool
  wednesday : Bool
  thursday : Bool
  friday : Bool
  saturday : Bool
  sunday : Bool
  start_date : String
  end_date : String
deriving DecidableEq

/-- A `calendar_dates.txt` row (`exception_type` after `parseInt`). -/
structure CalendarDateRow where
  date : String
  service_id : String
  exception_type : Int
deriving DecidableEq

/-- A `stop_times.txt` row.  `shape_dist_traveled` is kept raw: `loadStopTimes`
overwrites it (`shape_dist_traveled: null // Will be calculated`). -/
structure StopTimeRow where
  trip_id : String
  stop_id : String
  arrival_time : String
  departure_time : String
  stop_sequence : Int
  shape_dist_traveled : String
  timepoint : String
  stop_headsign : String
  pickup_type : String
  drop_off_type : String
deriving DecidableEq

/-- A stop time before the distance post-pass (`shape_dist_traveled: null`). -/
structure RawStopTime where
  trip_id : String
  stop_id : String
  arrival_time : String
  departure_time : String
  stop_sequence : Int
  timepoint : String
  stop_headsign : String
  pickup_type : String
  drop_off_type : String
deriving DecidableEq

/-- A stop time after `loadStopTimes` computed `shape_dist_traveled`. -/
structure StopTime where
  trip_id : String
  stop_id : String
  arrival_time : String
  departure_time : String
  stop_sequence : Int
  shape_dist_traveled : ℚ
  timepoint : String
  stop_headsign : String
  pickup_type : String
  drop_off_type : String
deriving DecidableEq

/-- The in-memory database built by `loadGTFSData`
(the fields of the `GTFSDatabase` constructor). -/
structure GTFSDatabase where
  shapes : List (String × List ShapePoint)
  stops : List (String × Stop)
  routes : List (String × Route)
  trips : List (String × Trip)
  tripsByService : List (String × List String)
  stopTimes : List (String × List StopTime)
  calendar : List (String × CalendarEntry)
  calendarDates : List (String × List (String × Int))
deriving DecidableEq

/-! ## Time and date helpers -/

/-- `timeStr.split(':')` on the underlying character list. -/
def splitOnChar (sep : Char) : List Char → List (List Char)
  | [] => [[]]
  | c :: cs =>
    if c = sep then [] :: splitOnChar sep cs
    else
      match splitOnChar sep cs with
      | [] => [[c]]
      | w :: ws => (c :: w) :: ws

/-- Numeric value of a decimal digit character. -/
def digitVal (c : Char) : Nat := c.toNat - 48

/-- Modelled from the builtin: `parseInt` on the all-digit strings the feed's
time and date fields hold (`none` stands for `NaN`). -/
def parseNatDigits : List Char → Option Nat
  | [] => none
  | l =>
    if l.all Char.isDigit then
      some (l.foldl (fun acc c => acc * 10 + digitVal c) 0)
    else none

/-- `timeToSeconds` (gtfs-loader.js 568-574): `HH:MM:SS` to raw seconds since
midnight, hours ≥ 24 simply scale — no wrap-around. -/
def timeToSeconds (timeStr : String) : Nat :=
  let parts := splitOnChar ':' timeStr.data
  let hours := ((parts.get? 0).bind parseNatDigits).getD 0
  let minutes := ((parts.get? 1).bind parseNatDigits).getD 0
  let seconds := ((parts.get? 2).bind parseNatDigits).getD 0
  hours * 3600 + minutes * 60 + seconds

/-- Lexicographic `≤` on character lists: JavaScript string comparison,
restricted to the code-unit range the feeds use. -/
def lexLe : List Char → List Char → Bool
  | [], _ => true
  | _ :: _, [] => false
  | a :: as, b :: bs => if a < b then true else if b < a then false else lexLe as bs

/-- JavaScript `s1 <= s2` on strings. -/
def strLe (a b : String) : Bool := lexLe a.data b.data

/-- Zeller's congruence on the proleptic Gregorian calendar
(`h`: 0 = Saturday, 1 = Sunday, …). -/
def zellerH (y m d : Nat) : Nat :=
  let yy := if m < 3 then y - 1 else y
  let mm := if m < 3 then m + 12 else m
  let k := yy % 100
  let j := yy / 100
  (d + 13 * (mm + 1) / 5 + k + k / 4 + j / 4 + 5 * j) % 7

/-- Modelled from the builtin: `new Date(y, m-1, d).getDay()` for a valid
proleptic-Gregorian date — 0 = Sunday, …, 6 = Saturday
(gtfs-loader.js 756-757). -/
def dayOfWeek (y m d : Nat) : Nat := (zellerH y m d + 6) % 7

/-- `parseInt(dateString.substring(0, 4))`. -/
def dateYear (s : String) : Nat := (parseNatDigits (s.data.take 4)).getD 0

/-- `parseInt(dateString.substring(4, 6))`. -/
def dateMonth (s : String) : Nat := (parseNatDigits ((s.data.drop 4).take 2)).getD 0

/-- `parseInt(dateString.substring(6, 8))`. -/
def dateDay (s : String) : Nat := (parseNatDigits ((s.data.drop 6).take 2)).getD 0

/-- `dayNames[dayOfWeek]` indexing into the calendar entry
(gtfs-loader.js 760-761, 768). -/
def weekdayFlag (c : CalendarEntry) (dow : Nat) : Bool :=
  match dow with
  | 0 => c.sunday
  | 1 => c.monday
  | 2 => c.tuesday
  | 3 => c.wednesday
  | 4 => c.thursday
  | 5 => c.friday
  | 6 => c.saturday
  | _ => false

/-! ## Dataset builder (loadGTFSData and the per-table loaders)

Every definition below that needs the geographic distance takes
`haversineDistance : ℚ → ℚ → ℚ → ℚ → ℚ` (lat1 lon1 lat2 lon2 ↦ metres) as an
explicit first parameter standing for the source's `haversineDistance`
(IEEE-double trigonometry, embedded over ℝ as `haversineReal` below). -/

/-- `findClosestPointOnShape`, inner loop (gtfs-loader.js 43-50): strict `<`
keeps the earliest point on ties. -/
def fcpLoop (haversineDistance : ℚ → ℚ → ℚ → ℚ → ℚ) (stopLat stopLon : ℚ)
    (minDistance closestShapeDistance : ℚ) : List ShapePoint → ℚ
  | [] => closestShapeDistance
  | p :: rest =>
    let dist := haversineDistance stopLat stopLon p.lat p.lon
    if dist < minDistance then
      fcpLoop haversineDistance stopLat stopLon dist p.distance rest
    else
      fcpLoop haversineDistance stopLat stopLon minDistance closestShapeDistance rest

/-- `findClosestPointOnShape` (gtfs-loader.js 35-53): the `distance` of the
shape point nearest the stop; `0` for a missing/empty shape.  The
`minDistance = Infinity` start is unrolled into the first iteration, which
always wins against `Infinity`. -/
def findClosestPointOnShape (haversineDistance : ℚ → ℚ → ℚ → ℚ → ℚ)
    (shapePoints : List ShapePoint) (stopLat stopLon : ℚ) : ℚ :=
  match shapePoints with
  | [] => 0
  | p :: rest =>
    fcpLoop haversineDistance stopLat stopLon
      (haversineDistance stopLat stopLon p.lat p.lon) p.distance rest

/-- Cumulative-distance post-pass of `loadShapes`, the `i > 0` iterations
(gtfs-loader.js 106-113). -/
def distLoop (haversineDistance : ℚ → ℚ → ℚ → ℚ → ℚ) (prev : RawShapePoint)
    (prevDistance : ℚ) : List RawShapePoint → List ShapePoint
  | [] => []
  | q :: rest =>
    let d := prevDistance + haversineDistance prev.lat prev.lon q.lat q.lon
    { lat := q.lat, lon := q.lon, sequence := q.sequence, distance := d } ::
      distLoop haversineDistance q d rest

/-- Cumulative-distance post-pass of `loadShapes` (gtfs-loader.js 102-114):
`points[0].distance = 0`, each later point adds the haversine from its
predecessor. -/
def computeDistances (haversineDistance : ℚ → ℚ → ℚ → ℚ → ℚ) :
    List RawShapePoint → List ShapePoint
  | [] => []
  | p :: rest =>
    { lat := p.lat, lon := p.lon, sequence := p.sequence, distance := 0 } ::
      distLoop haversineDistance p 0 rest

/-- The point a `shapes.txt` row contributes (gtfs-loader.js 85-90); the row's
`shape_dist_traveled` is not read (`distance: null`). -/
def pointOfShapeRow (r : ShapeRow) : RawShapePoint :=
  { lat := r.shape_pt_lat, lon := r.shape_pt_lon, sequence := r.shape_pt_sequence }

/-- Sort key used for `points.sort((a, b) => a.sequence - b.sequence)`. -/
def bySeqLe (a b : RawShapePoint) : Prop := a.sequence ≤ b.sequence

instance : DecidableRel bySeqLe := fun a b =>
  inferInstanceAs (Decidable (a.sequence ≤ b.sequence))

instance : IsTotal RawShapePoint bySeqLe :=
  ⟨fun a b => Int.le_total a.sequence b.sequence⟩

instance : IsTrans RawShapePoint bySeqLe :=
  ⟨fun _ _ _ hab hbc => le_trans hab hbc⟩

/-- `loadShapes` (gtfs-loader.js 73-123): group rows by `shape_id` in first-seen
order, sort each group by `shape_pt_sequence`, then run the cumulative-distance
post-pass.  The JavaScript sort is modelled by insertion sort (a sorted
permutation, which is all later code observes). -/
def loadShapes (haversineDistance : ℚ → ℚ → ℚ → ℚ → ℚ) (rows : List ShapeRow) :
    List (String × List ShapePoint) :=
  let grouped := rows.foldl (fun m r => mpush m r.shape_id (pointOfShapeRow r)) []
  grouped.map fun p =>
    (p.1, computeDistances haversineDistance (p.2.insertionSort bySeqLe))

/-- `loadStops` (gtfs-loader.js 191-226): `stops.set(row.stop_id, {...row})`. -/
def loadStops (rows : List Stop) : List (String × Stop) :=
  rows.foldl (fun m r => mset m r.stop_id r) []

/-- `loadRoutes` (gtfs-loader.js 231-263). -/
def loadRoutes (rows : List Route) : List (String × Route) :=
  rows.foldl (fun m r => mset m r.route_id r) []

/-- `loadTrips` (gtfs-loader.js 268-314): the trips map and the
`tripsByService` index (every row is pushed, even a duplicate `trip_id`). -/
def loadTrips (rows : List Trip) :
    List (String × Trip) × List (String × List String) :=
  rows.foldl
    (fun ms r => (mset ms.1 r.trip_id r, mpush ms.2 r.service_id r.trip_id))
    ([], [])

/-- `loadCalendar` (gtfs-loader.js 419-450): weekday columns become
`row.monday === '1'` booleans. -/
def entryOfCalendarRow (r : CalendarRow) : CalendarEntry :=
  { service_id := r.service_id
    monday := r.monday == "1", tuesday := r.tuesday == "1"
    wednesday := r.wednesday == "1", thursday := r.thursday == "1"
    friday := r.friday == "1", saturday := r.saturday == "1"
    sunday := r.sunday == "1"
    start_date := r.start_date, end_date := r.end_date }

/-- `loadCalendar` (gtfs-loader.js 419-450). -/
def loadCalendar (rows : List CalendarRow) : List (String × CalendarEntry) :=
  rows.foldl (fun m r => mset m r.service_id (entryOfCalendarRow r)) []

/-- `loadCalendarDates` (gtfs-loader.js 456-483):
`Map<date, Map<service_id, exception_type>>`. -/
def loadCalendarDates (rows : List CalendarDateRow) :
    List (String × List (String × Int)) :=
  rows.foldl
    (fun m r =>
      let inner := (mget m r.date).getD []
      mset m r.date (mset inner r.service_id r.exception_type))
    []

/-- The record a `stop_times.txt` row contributes (gtfs-loader.js 500-511);
the row's `shape_dist_traveled` is not read (`shape_dist_traveled: null`). -/
def rawOfStopTimeRow (r : StopTimeRow) : RawStopTime :=
  { trip_id := r.trip_id, stop_id := r.stop_id
    arrival_time := r.arrival_time, departure_time := r.departure_time
    stop_sequence := r.stop_sequence, timepoint := r.timepoint
    stop_headsign := r.stop_headsign, pickup_type := r.pickup_type
    drop_off_type := r.drop_off_type }

/-- Sort key for `times.sort((a, b) => a.stop_sequence - b.stop_sequence)`. -/
def byStopSeqLe (a b : RawStopTime) : Prop := a.stop_sequence ≤ b.stop_sequence

instance : DecidableRel byStopSeqLe := fun a b =>
  inferInstanceAs (Decidable (a.stop_sequence ≤ b.stop_sequence))

instance : IsTotal RawStopTime byStopSeqLe :=
  ⟨fun a b => Int.le_total a.stop_sequence b.stop_sequence⟩

instance : IsTrans RawStopTime byStopSeqLe :=
  ⟨fun _ _ _ hab hbc => le_trans hab hbc⟩

/-- Attach the computed `shape_dist_traveled` to a raw stop time. -/
def mkStopTime (r : RawStopTime) (d : ℚ) : StopTime :=
  { trip_id := r.trip_id, stop_id := r.stop_id
    arrival_time := r.arrival_time, departure_time := r.departure_time
    stop_sequence := r.stop_sequence, shape_dist_traveled := d
    timepoint := r.timepoint, stop_headsign := r.stop_headsign
    pickup_type := r.pickup_type, drop_off_type := r.drop_off_type }

/-- The `shape_dist_traveled` computed for one stop time
(gtfs-loader.js 527-553): nearest-point projection when the stop resolves and
a non-empty shape exists; else `0` for the first stop; else the stop-to-stop
haversine fallback (copying the previous value when either stop is missing).
`prevOpt` carries the previous raw stop time and its computed value
(`none` for `i = 0`). -/
def stSdt (haversineDistance : ℚ → ℚ → ℚ → ℚ → ℚ) (stops : List (String × Stop))
    (shapeOpt : Option (List ShapePoint)) (prevOpt : Option (RawStopTime × ℚ))
    (cur : RawStopTime) : ℚ :=
  match mget stops cur.stop_id, shapeOpt with
  | some currStop, some (p :: ps) =>
    findClosestPointOnShape haversineDistance (p :: ps)
      currStop.stop_lat currStop.stop_lon
  | currStopOpt, _ =>
    match prevOpt with
    | none => 0
    | some (prevRaw, prevSdt) =>
      match mget stops prevRaw.stop_id, currStopOpt with
      | some prevStop, some currStop =>
        prevSdt + haversineDistance prevStop.stop_lat prevStop.stop_lon
          currStop.stop_lat currStop.stop_lon
      | _, _ => prevSdt

/-- Distance post-pass of `loadStopTimes`, iterations `i > 0`. -/
def stLoop (haversineDistance : ℚ → ℚ → ℚ → ℚ → ℚ) (stops : List (String × Stop))
    (shapeOpt : Option (List ShapePoint)) (prevRaw : RawStopTime) (prevSdt : ℚ) :
    List RawStopTime → List StopTime
  | [] => []
  | cur :: rest =>
    let d := stSdt haversineDistance stops shapeOpt (some (prevRaw, prevSdt)) cur
    mkStopTime cur d ::
      stLoop haversineDistance stops shapeOpt cur d rest

/-- The `trip?.shape_id ? this.shapes.get(trip.shape_id) : null` lookup of
`loadStopTimes` (gtfs-loader.js 524-525). -/
def shapeOptOf (trips : List (String × Trip))
    (shapes : List (String × List ShapePoint)) (tripId : String) :
    Option (List ShapePoint) :=
  match mget trips tripId with
  | some trip => if trip.shape_id = "" then none else mget shapes trip.shape_id
  | none => none

/-- Distance post-pass of `loadStopTimes` for one trip
(gtfs-loader.js 522-553). -/
def computeStopDistances (haversineDistance : ℚ → ℚ → ℚ → ℚ → ℚ)
    (trips : List (String × Trip)) (stops : List (String × Stop))
    (shapes : List (String × List ShapePoint)) (tripId : String)
    (times : List RawStopTime) : List StopTime :=
  let shapeOpt := shapeOptOf trips shapes tripId
  match times with
  | [] => []
  | first :: rest =>
    let d0 := stSdt haversineDistance stops shapeOpt none first
    mkStopTime first d0 ::
      stLoop haversineDistance stops shapeOpt first d0 rest

/-- `loadStopTimes` (gtfs-loader.js 488-562): group rows by `trip_id`, sort each
trip's list by `stop_sequence`, then compute `shape_dist_traveled`. -/
def loadStopTimes (haversineDistance : ℚ → ℚ → ℚ → ℚ → ℚ)
    (trips : List (String × Trip)) (stops : List (String × Stop))
    (shapes : List (String × List ShapePoint)) (rows : List StopTimeRow) :
    List (String × List StopTime) :=
  let grouped := rows.foldl (fun m r => mpush m r.trip_id (rawOfStopTimeRow r)) []
  grouped.map fun p =>
    (p.1,
      computeStopDistances haversineDistance trips stops shapes p.1
        (p.2.insertionSort byStopSeqLe))

/-- One input feed: the parsed rows of the seven GTFS tables. -/
structure RawFeed where
  shapeRows : List ShapeRow
  stopRows : List Stop
  routeRows : List Route
  tripRows : List Trip
  calendarRows : List CalendarRow
  calendarDateRows : List CalendarDateRow
  stopTimeRows : List StopTimeRow
deriving DecidableEq

/-- `loadGTFSData` (gtfs-loader.js 795-851): load the tables in source order —
`loadStopTimes` runs last and reads the already-loaded trips, stops and
shapes. -/
def buildDataset (haversineDistance : ℚ → ℚ → ℚ → ℚ → ℚ) (f : RawFeed) :
    GTFSDatabase :=
  let shapes := loadShapes haversineDistance f.shapeRows
  let stops := loadStops f.stopRows
  let routes := loadRoutes f.routeRows
  let tt := loadTrips f.tripRows
  let calendar := loadCalendar f.calendarRows
  let calendarDates := loadCalendarDates f.calendarDateRows
  let stopTimes := loadStopTimes haversineDistance tt.1 stops shapes f.stopTimeRows
  { shapes := shapes, stops := stops, routes := routes, trips := tt.1
    tripsByService := tt.2, stopTimes := stopTimes, calendar := calendar
    calendarDates := calendarDates }

/-! ## Calendar resolver -/

/-- `Set.add`: JavaScript set insertion preserving first-insertion order. -/
def setAdd (l : List String) (x : String) : List String :=
  if x ∈ l then l else l ++ [x]

/-- One calendar-dates exception step (gtfs-loader.js 777-785):
`exception_type === 1` adds, `=== 2` deletes, anything else is ignored. -/
def applyException (l : List String) (e : String × Int) : List String :=
  if e.2 = 1 then setAdd l e.1 else if e.2 = 2 then l.erase e.1 else l

/-- `getServicesOnDate` (gtfs-loader.js 749-789). -/
def getServicesOnDate (db : GTFSDatabase) (dateString : String) : List String :=
  let dow := dayOfWeek (dateYear dateString) (dateMonth dateString) (dateDay dateString)
  let base := db.calendar.foldl
    (fun acc p =>
      if strLe p.2.start_date dateString && strLe dateString p.2.end_date &&
          weekdayFlag p.2 dow then
        setAdd acc p.1
      else acc)
    []
  let exceptions := (mget db.calendarDates dateString).getD []
  exceptions.foldl applyException base

/-- `getTripsOnDate` (gtfs-loader.js 581-593). -/
def getTripsOnDate (db : GTFSDatabase) (dateString : String) : List String :=
  (getServicesOnDate db dateString).foldl
    (fun acc sid =>
      match mget db.tripsByService sid with
      | some trips => acc ++ trips
      | none => acc)
    []

/-! ## Position resolver -/

/-- Properties of an emitted vehicle feature.  The source builds two object
literals; fields absent from a literal are `none` here. -/
structure VehicleProperties where
  trip_id : String
  route : Option Route
  stop_id : Option String
  stop_name : Option String
  shape_dist_traveled : ℚ
  from_stop_id : Option String
  to_stop_id : Option String
  status : String
deriving DecidableEq

/-- A GeoJSON Point feature for one vehicle; the geometry's `coordinates`
array is `[lon, lat]`. -/
structure VehicleFeature where
  properties : VehicleProperties
  lon : ℚ
  lat : ℚ
deriving DecidableEq

/-- The at-stop scan (gtfs-loader.js 631-661): the first stop time in list
order with `arrival ≤ t ≤ departure`. -/
def findAtStopMatch (t : Nat) (sts : List StopTime) : Option StopTime :=
  sts.find? fun st =>
    decide (timeToSeconds st.arrival_time ≤ t) &&
      decide (t ≤ timeToSeconds st.departure_time)

/-- The `at_stop` feature (gtfs-loader.js 643-657). -/
def atStopFeature (db : GTFSDatabase) (tripId : String) (st : StopTime)
    (stop : Stop) : VehicleFeature :=
  let route := match mget db.trips tripId with
    | some trip => mget db.routes trip.route_id
    | none => none
  { properties :=
      { trip_id := tripId, route := route, stop_id := some st.stop_id
        stop_name := some stop.stop_name
        shape_dist_traveled := st.shape_dist_traveled
        from_stop_id := none, to_stop_id := none, status := "at_stop" }
    lon := stop.stop_lon, lat := stop.stop_lat }

/-- The bracketing-segment search (gtfs-loader.js 694-701): the first
consecutive pair with `distance[j] ≤ expected ≤ distance[j+1]`. -/
def findBracket (expectedDistance : ℚ) :
    List ShapePoint → Option (ShapePoint × ShapePoint)
  | p :: q :: rest =>
    if decide (p.distance ≤ expectedDistance) &&
        decide (expectedDistance ≤ q.distance) then
      some (p, q)
    else findBracket expectedDistance (q :: rest)
  | _ => none

/-- The `in_transit` feature (gtfs-loader.js 703-729): linear interpolation on
the bracketing shape segment, ratio `0` when the segment has zero length. -/
def inTransitFeature (db : GTFSDatabase) (tripId : String) (trip : Trip)
    (fromStop toStop : StopTime) (expectedDistance : ℚ)
    (beforePoint afterPoint : ShapePoint) : VehicleFeature :=
  let distDiff := afterPoint.distance - beforePoint.distance
  let distRatio :=
    if 0 < distDiff then (expectedDistance - beforePoint.distance) / distDiff
    else 0
  let lat := beforePoint.lat + (afterPoint.lat - beforePoint.lat) * distRatio
  let lon := beforePoint.lon + (afterPoint.lon - beforePoint.lon) * distRatio
  let route := mget db.routes trip.route_id
  { properties :=
      { trip_id := tripId, route := route, stop_id := none, stop_name := none
        shape_dist_traveled := expectedDistance
        from_stop_id := some fromStop.stop_id, to_stop_id := some toStop.stop_id
        status := "in_transit" }
    lon := lon, lat := lat }

/-- The in-transit scan over consecutive stop pairs (gtfs-loader.js 665-733).
A missing trip, empty `shape_id` or missing/empty shape hits `continue` (the
same test will fail at every later pair, so the trip yields nothing); a failed
bracket search hits `break` with `position` still null. -/
def inTransitLoop (db : GTFSDatabase) (tripId : String) (t : Nat) :
    List StopTime → Option VehicleFeature
  | fromStop :: toStop :: rest =>
    let fromDeparture := timeToSeconds fromStop.departure_time
    let toArrival := timeToSeconds toStop.arrival_time
    if fromDeparture < t ∧ t < toArrival then
      let timeRatio : ℚ :=
        ((t : ℚ) - (fromDeparture : ℚ)) / ((toArrival : ℚ) - (fromDeparture : ℚ))
      let expectedDistance :=
        fromStop.shape_dist_traveled +
          (toStop.shape_dist_traveled - fromStop.shape_dist_traveled) * timeRatio
      match mget db.trips tripId with
      | none => inTransitLoop db tripId t (toStop :: rest)
      | some trip =>
        if trip.shape_id = "" then inTransitLoop db tripId t (toStop :: rest)
        else
          match mget db.shapes trip.shape_id with
          | none => inTransitLoop db tripId t (toStop :: rest)
          | some shapePoints =>
            if shapePoints.isEmpty then inTransitLoop db tripId t (toStop :: rest)
            else
              match findBracket expectedDistance shapePoints with
              | some (beforePoint, afterPoint) =>
                some (inTransitFeature db tripId trip fromStop toStop
                  expectedDistance beforePoint afterPoint)
              | none => none
    else inTransitLoop db tripId t (toStop :: rest)
  | _ => none

/-- The body of the per-trip loop of `getVehiclePositions`
(gtfs-loader.js 614-738): service-window check, at-stop scan (a found stop
that does not resolve in the stops table leaves `position` null and breaks),
then the in-transit scan. -/
def tripPosition (db : GTFSDatabase) (tripId : String) (t : Nat) :
    Option VehicleFeature :=
  match mget db.stopTimes tripId with
  | none => none
  | some sts =>
    match sts with
    | [] => none
    | first :: rest =>
      let lastStop := (first :: rest).getLast (List.cons_ne_nil first rest)
      let firstArrival := timeToSeconds first.arrival_time
      let lastDeparture := timeToSeconds lastStop.departure_time
      if t < firstArrival ∨ lastDeparture < t then none
      else
        let atStop : Option VehicleFeature :=
          match findAtStopMatch t (first :: rest) with
          | none => none
          | some st =>
            match mget db.stops st.stop_id with
            | none => none
            | some stop => some (atStopFeature db tripId st stop)
        match atStop with
        | some f => some f
        | none => inTransitLoop db tripId t (first :: rest)

/-- `getVehiclePositions` (gtfs-loader.js 600-742), with the date key and the
seconds-since-midnight already extracted from the `Date`: the resulting
**array** of features, in trip iteration order. -/
def getVehiclePositions (db : GTFSDatabase) (dateString : String)
    (currentSeconds : Nat) : List VehicleFeature :=
  (getTripsOnDate db dateString).filterMap fun tripId =>
    tripPosition db tripId currentSeconds

/-- The components of the query datetime as the server's local-time `Date`
exposes them (`getFullYear`, `getMonth() + 1`, `getDate`, `getHours`,
`getMinutes`, `getSeconds`). -/
structure DateTimeParts where
  year : Nat
  month : Nat
  day : Nat
  hour : Nat
  minute : Nat
  second : Nat
deriving DecidableEq

/-- `String(n).padStart(2, '0')`. -/
def pad2 (n : Nat) : String := if n < 10 then "0" ++ toString n else toString n

/-- The `YYYYMMDD` date key built by `getVehiclePositions`
(gtfs-loader.js 601-605). -/
def dateKeyOf (p : DateTimeParts) : String :=
  toString p.year ++ pad2 p.month ++ pad2 p.day

/-- `getHours() * 3600 + getMinutes() * 60 + getSeconds()`
(gtfs-loader.js 608). -/
def secondsOf (p : DateTimeParts) : Nat :=
  p.hour * 3600 + p.minute * 60 + p.second

/-- `getVehiclePositions(datetime)` on a parsed datetime. -/
def getVehiclePositionsAt (db : GTFSDatabase) (p : DateTimeParts) :
    List VehicleFeature :=
  getVehiclePositions db (dateKeyOf p) (secondsOf p)

/-- The success body of `GET /vehicles/at/:datetime` (server.js 244-248):
`vehicles` is the value returned by `getVehiclePositions` — an array — and
`vehicle_count` is `Object.keys(vehicles).length`, which on an array is its
length. -/
structure VehiclesResponse where
  datetime : String
  vehicle_count : Nat
  vehicles : List VehicleFeature
deriving DecidableEq

/-- The `/vehicles/at/:datetime` handler body (server.js 222-253) on a request
whose datetime validated and parsed to `p`.  `routesQuery` is the request's
optional `routes` query parameter; the handler never reads `req.query`, so the
parameter does not occur on the right-hand side. -/
def vehiclesAtBody (db : GTFSDatabase) (datetimeStr : String)
    (p : DateTimeParts) (_routesQuery : Option String) : VehiclesResponse :=
  { datetime := datetimeStr
    vehicle_count := (getVehiclePositionsAt db p).length
    vehicles := getVehiclePositionsAt db p }

/-! ## Derived views of the resolver's scans

Projections of the loops of `getVehiclePositions`, used to state the claims;
each is proved equal to the corresponding scan below. -/

/-- The first consecutive stop pair with `departure[i] < t < arrival[i+1]`, in
the scanning order of the in-transit loop (gtfs-loader.js 665-672). -/
def findTransitPair (t : Nat) : List StopTime → Option (StopTime × StopTime)
  | a :: b :: rest =>
    if timeToSeconds a.departure_time < t ∧ t < timeToSeconds b.arrival_time then
      some (a, b)
    else findTransitPair t (b :: rest)
  | _ => none

/-- The shape the in-transit loop can use: `none` when the trip is missing,
its `shape_id` is falsy, the shape is missing, or the shape is empty
(the `continue` cases of gtfs-loader.js 684-688). -/
def tripShapeAvailable (db : GTFSDatabase) (tripId : String) :
    Option (List ShapePoint) :=
  match mget db.trips tripId with
  | none => none
  | some trip =>
    if trip.shape_id = "" then none
    else
      match mget db.shapes trip.shape_id with
      | none => none
      | some pts => if pts.isEmpty then none else some pts

/-- The `expectedDistance` the in-transit loop computes for the pair
`(fromStop, toStop)` (gtfs-loader.js 674-681), written out. -/
def codeExpectedDistance (t : Nat) (fromStop toStop : StopTime) : ℚ :=
  fromStop.shape_dist_traveled +
    (toStop.shape_dist_traveled - fromStop.shape_dist_traveled) *
      (((t : ℚ) - ((timeToSeconds fromStop.departure_time : Nat) : ℚ)) /
        (((timeToSeconds toStop.arrival_time : Nat) : ℚ) -
          ((timeToSeconds fromStop.departure_time : Nat) : ℚ)))

/-- What the in-transit loop does once it has committed to a stop pair and a
usable shape (gtfs-loader.js 690-731): bracket search, then either the
interpolated feature or `break` with no position. -/
def transitBody (db : GTFSDatabase) (tripId : String) (trip : Trip) (t : Nat)
    (fromStop toStop : StopTime) (pts : List ShapePoint) :
    Option VehicleFeature :=
  match findBracket (codeExpectedDistance t fromStop toStop) pts with
  | some (beforePoint, afterPoint) =>
    some (inTransitFeature db tripId trip fromStop toStop
      (codeExpectedDistance t fromStop toStop) beforePoint afterPoint)
  | none => none

/-! ## The spec's wording of the in-transit interpolation (for C5)

These definitions follow the specification sentences, to be compared with the
code's computation. -/

/-- Spec: `time_ratio = (t − departure[i]) / (arrival[i+1] − departure[i])`,
`expected_distance = shape_dist[i] + time_ratio · (shape_dist[i+1] −
shape_dist[i])`. -/
def specExpectedDistance (t fromDeparture toArrival : Nat)
    (fromSdt toSdt : ℚ) : ℚ :=
  fromSdt +
    (((t : ℚ) - (fromDeparture : ℚ)) / ((toArrival : ℚ) - (fromDeparture : ℚ))) *
      (toSdt - fromSdt)

/-- Spec: the interpolation fraction
`(expected_distance − cumulative_distance[j]) / (cumulative_distance[j+1] −
cumulative_distance[j])`, zero when the denominator is zero. -/
def specFraction (expected lo hi : ℚ) : ℚ :=
  if hi - lo = 0 then 0 else (expected - lo) / (hi - lo)

/-- Spec: linear interpolation of latitude between shape points j and j+1. -/
def specInterpLat (b a : ShapePoint) (expected : ℚ) : ℚ :=
  b.lat + (a.lat - b.lat) * specFraction expected b.distance a.distance

/-- Spec: linear interpolation of longitude between shape points j and j+1. -/
def specInterpLon (b a : ShapePoint) (expected : ℚ) : ℚ :=
  b.lon + (a.lon - b.lon) * specFraction expected b.distance a.distance

/-! ## The shape-distance scrub (for C9)

The claim compares feeds that differ only in their `shape_dist_traveled`
columns; the scrub erases exactly those columns. -/

/-- Erase the `shape_dist_traveled` column of a `shapes.txt` row. -/
def scrubShapeRow (r : ShapeRow) : ShapeRow := { r with shape_dist_traveled := "" }

/-- Erase the `shape_dist_traveled` column of a `stop_times.txt` row. -/
def scrubStopTimeRow (r : StopTimeRow) : StopTimeRow :=
  { r with shape_dist_traveled := "" }

/-- Erase every `shape_dist_traveled` column of a feed — two feeds are equal
after `scrubFeed` exactly when they differ only in those columns. -/
def scrubFeed (f : RawFeed) : RawFeed :=
  { f with shapeRows := f.shapeRows.map scrubShapeRow
           stopTimeRows := f.stopTimeRows.map scrubStopTimeRow }

/-! ## Concrete fixtures

Small datasets used to witness the theorems and to exhibit counterexamples.
`sqDist` stands in for `haversineDistance` in concrete evaluations: it is
nonnegative, zero exactly on equal points, and orders every pair of points
appearing in the fixtures the same way the real haversine does (the fixtures
only ever compare a zero distance with a positive one). -/

/-- Squared planar distance: a computable stand-in for the float haversine in
concrete fixtures (same order on every comparison the fixtures make). -/
def sqDist (lat1 lon1 lat2 lon2 : ℚ) : ℚ :=
  (lat1 - lat2) * (lat1 - lat2) + (lon1 - lon2) * (lon1 - lon2)

/-- A stop with only the claim-relevant fields populated. -/
def blankStop (id nm : String) (lat lon : ℚ) : Stop :=
  { stop_id := id, stop_name := nm, stop_lat := lat, stop_lon := lon
    stop_code := "", stop_desc := "", zone_id := "", stop_url := ""
    location_type := "", parent_station := "", wheelchair_boarding := ""
    stop_timezone := "", platform_code := "", tts_stop_name := "" }

/-- A route with only its id populated. -/
def blankRoute (id : String) : Route :=
  { route_id := id, agency_id := "", route_short_name := ""
    route_long_name := "", route_type := "", route_desc := "", route_url := ""
    route_color := "", route_text_color := "", network_id := ""
    route_sort_order := "" }

/-- A trip with only the claim-relevant fields populated. -/
def blankTrip (id rid sid shp : String) : Trip :=
  { trip_id := id, route_id := rid, service_id := sid, trip_short_name := ""
    trip_headsign := "", direction_id := "", block_id := "", shape_id := shp
    wheelchair_accessible := "", drt_advance_book_min := "", bikes_allowed := ""
    fare_id := "", peak_offpeak := "", boarding_type := "" }

/-- A calendar entry active every weekday of the given date range. -/
def allDaysCalendarEntry (sid start stop : String) : CalendarEntry :=
  { service_id := sid, monday := true, tuesday := true, wednesday := true
    thursday := true, friday := true, saturday := true, sunday := true
    start_date := start, end_date := stop }

/-- A loaded stop time with only the claim-relevant fields populated. -/
def blankStopTime (tid stid arr dep : String) (seq : Int) (sdt : ℚ) : StopTime :=
  { trip_id := tid, stop_id := stid, arrival_time := arr, departure_time := dep
    stop_sequence := seq, shape_dist_traveled := sdt, timepoint := ""
    stop_headsign := "", pickup_type := "", drop_off_type := "" }

/-- A `stop_times.txt` row with only the claim-relevant fields populated. -/
def blankStopTimeRow (tid stid arr dep : String) (seq : Int) (sdt : String) :
    StopTimeRow :=
  { trip_id := tid, stop_id := stid, arrival_time := arr, departure_time := dep
    stop_sequence := seq, shape_dist_traveled := sdt, timepoint := ""
    stop_headsign := "", pickup_type := "", drop_off_type := "" }

/-- A `shapes.txt` row. -/
def blankShapeRow (sid : String) (lat lon : ℚ) (seq : Int) (sdt : String) :
    ShapeRow :=
  { shape_id := sid, shape_pt_lat := lat, shape_pt_lon := lon
    shape_pt_sequence := seq, shape_dist_traveled := sdt }

/-- Fixture: one trip `t1` on route `r1`, service `svc1` (active every day of
2020–2099), one stop time at stop `s1` dwelling 09:00:00–09:00:30. -/
def atStopDb : GTFSDatabase :=
  { shapes := []
    stops := [("s1", blankStop "s1" "First Avenue" 47 (-122))]
    routes := [("r1", blankRoute "r1")]
    trips := [("t1", blankTrip "t1" "r1" "svc1" "")]
    tripsByService := [("svc1", ["t1"])]
    stopTimes := [("t1", [blankStopTime "t1" "s1" "09:00:00" "09:00:30" 1 0])]
    calendar := [("svc1", allDaysCalendarEntry "svc1" "20200101" "20991231")]
    calendarDates := [] }

/-- The feature `atStopDb` produces at 09:00:15. -/
def atStopDbFeature : VehicleFeature :=
  { properties :=
      { trip_id := "t1", route := some (blankRoute "r1"), stop_id := some "s1"
        stop_name := some "First Avenue", shape_dist_traveled := 0
        from_stop_id := none, to_stop_id := none, status := "at_stop" }
    lon := -122, lat := 47 }

/-- Fixture: one trip `t2` with a two-point shape `sh1` from (0,0) to (0,1)
(cumulative distances 0 and 1), stops at the endpoints, departing the first
at 10:00:00 and arriving at the second at 10:10:00. -/
def inTransitDb : GTFSDatabase :=
  { shapes := [("sh1", [⟨0, 0, 1, 0⟩, ⟨0, 1, 2, 1⟩])]
    stops := [("s1", blankStop "s1" "A" 0 0), ("s2", blankStop "s2" "B" 0 1)]
    routes := [("r1", blankRoute "r1")]
    trips := [("t2", blankTrip "t2" "r1" "svc1" "sh1")]
    tripsByService := [("svc1", ["t2"])]
    stopTimes := [("t2",
      [blankStopTime "t2" "s1" "10:00:00" "10:00:00" 1 0,
       blankStopTime "t2" "s2" "10:10:00" "10:10:00" 2 1])]
    calendar := [("svc1", allDaysCalendarEntry "svc1" "20200101" "20991231")]
    calendarDates := [] }

/-- Fixture for the C6 counterexample: like `inTransitDb` but the trip `t3`
has no shape, so mid-window queries cannot interpolate a position. -/
def noShapeDb : GTFSDatabase :=
  { shapes := []
    stops := [("s1", blankStop "s1" "A" 0 0), ("s2", blankStop "s2" "B" 0 1)]
    routes := [("r1", blankRoute "r1")]
    trips := [("t3", blankTrip "t3" "r1" "svc1" "")]
    tripsByService := [("svc1", ["t3"])]
    stopTimes := [("t3",
      [blankStopTime "t3" "s1" "10:00:00" "10:00:00" 1 0,
       blankStopTime "t3" "s2" "10:10:00" "10:10:00" 2 1])]
    calendar := [("svc1", allDaysCalendarEntry "svc1" "20200101" "20991231")]
    calendarDates := [] }

/-- Fixture feed for the C7 counterexample: the trip's shape runs (0,0)→(0,1),
its first stop sits on the far endpoint (0,1) and its second on the near
endpoint (0,0), so nearest-point projection gives decreasing distances; the
second and third rows share `stop_sequence` 2. -/
def projFeed : RawFeed :=
  { shapeRows := [blankShapeRow "sh" 0 0 1 "", blankShapeRow "sh" 0 1 2 ""]
    stopRows := [blankStop "s1" "Far" 0 1, blankStop "s2" "Near" 0 0]
    routeRows := [blankRoute "r1"]
    tripRows := [blankTrip "t1" "r1" "svc1" "sh"]
    calendarRows := []
    calendarDateRows := []
    stopTimeRows :=
      [blankStopTimeRow "t1" "s1" "10:00:00" "10:01:00" 1 "",
       blankStopTimeRow "t1" "s2" "10:05:00" "10:06:00" 2 "",
       blankStopTimeRow "t1" "s1" "10:10:00" "10:11:00" 2 ""] }

/-- Fixture feed for C9: a `shape_dist_traveled` of 42.5 in shapes.txt and of
7 in stop_times.txt. -/
def sdtFeedA : RawFeed :=
  { shapeRows := [blankShapeRow "sh" 0 0 1 "42.5"]
    stopRows := [], routeRows := [], tripRows := []
    calendarRows := [], calendarDateRows := []
    stopTimeRows := [blankStopTimeRow "t1" "s1" "08:00:00" "08:00:00" 1 "7"] }

/-- Fixture feed for C9: identical to `sdtFeedA` except both
`shape_dist_traveled` columns. -/
def sdtFeedB : RawFeed :=
  { shapeRows := [blankShapeRow "sh" 0 0 1 ""]
    stopRows := [], routeRows := [], tripRows := []
    calendarRows := [], calendarDateRows := []
    stopTimeRows := [blankStopTimeRow "t1" "s1" "08:00:00" "08:00:00" 1 "0"] }

/-- Fixture rows for the C7 witness: two stop-time rows of a trip with no
shape and no resolvable stops, so every distance falls back to the copying
branch. -/
def plainStopTimeRows : List StopTimeRow :=
  [blankStopTimeRow "t1" "s1" "08:00:00" "08:00:00" 1 "",
   blankStopTimeRow "t1" "s2" "08:10:00" "08:10:00" 2 ""]

/-- Fixture for the calendar resolver: service `svc1` runs all of 2025 but has
a REMOVE exception on 20250104, and `svc2` has an ADD exception there. -/
def exceptionDb : GTFSDatabase :=
  { shapes := [], stops := [], routes := [], trips := [], tripsByService := []
    stopTimes := []
    calendar := [("svc1", allDaysCalendarEntry "svc1" "20250101" "20251231")]
    calendarDates := [("20250104", [("svc1", 2), ("svc2", 1)])] }

/-! ## The real-number haversine formula

`Math.atan2` and `haversineDistance` (gtfs-loader.js 13-26) embedded over ℝ.
Only nonnegativity is ever used by the claims, so the `ℚ`-level definitions
above take the distance function as a parameter and the theorems assume it is
nonnegative; `haversineReal_nonneg` shows the assumption is true of the
formula the source computes. -/

/-- `Math.atan2 y x`: angle of the point `(x, y)` in `(-π, π]`. -/
noncomputable def atan2 (y x : ℝ) : ℝ :=
  if 0 < x then Real.arctan (y / x)
  else if x < 0 then
    (if 0 ≤ y then Real.arctan (y / x) + Real.pi
     else Real.arctan (y / x) - Real.pi)
  else
    (if 0 < y then Real.pi / 2
     else if y < 0 then -(Real.pi / 2)
     else 0)

/-- `haversineDistance` (gtfs-loader.js 13-26) over ℝ: great-circle metres on a
sphere of radius 6,371,000 m. -/
noncomputable def haversineReal (lat1 lon1 lat2 lon2 : ℝ) : ℝ :=
  let R : ℝ := 6371000
  let phi1 := lat1 * Real.pi / 180
  let phi2 := lat2 * Real.pi / 180
  let dphi := (lat2 - lat1) * Real.pi / 180
  let dlam := (lon2 - lon1) * Real.pi / 180
  let a := Real.sin (dphi / 2) * Real.sin (dphi / 2) +
    Real.cos phi1 * Real.cos phi2 * Real.sin (dlam / 2) * Real.sin (dlam / 2)
  let c := 2 * atan2 (Real.sqrt a) (Real.sqrt (1 - a))
  R * c

end GTFS

namespace GTFS

/-! ## Sanity checks on the helpers -/

example : timeToSeconds "09:27:00" = 34020 := by decide
example : timeToSeconds "25:00:00" = 90000 := by decide
example : dayOfWeek 2025 1 3 = 5 := by decide
example : dayOfWeek 2025 1 4 = 6 := by decide
example : dayOfWeek 2025 11 19 = 3 := by decide
example : strLe "20250101" "20250103" = true := rfl
example : strLe "20250104" "20250103" = false := rfl
example : dateKeyOf ⟨2025, 1, 3, 9, 0, 15⟩ = "20250103" := by decide

/-! ## General lemmas about the resolver -/

/-- `Real.arctan` is nonnegative on nonnegative inputs. -/
theorem arctan_nonneg_of_nonneg {t : ℝ} (ht : 0 ≤ t) : 0 ≤ Real.arctan t := by
  rw [← Real.arctan_zero]
  exact Real.arctan_strictMono.monotone ht

/-- `atan2 y x` is nonnegative whenever `y ≥ 0`. -/
theorem atan2_nonneg (y x : ℝ) (hy : 0 ≤ y) : 0 ≤ atan2 y x := by
  unfold atan2
  have hpi : 0 < Real.pi := Real.pi_pos
  by_cases hx : 0 < x
  · rw [if_pos hx]
    exact arctan_nonneg_of_nonneg (div_nonneg hy hx.le)
  · rw [if_neg hx]
    by_cases hx' : x < 0
    · rw [if_pos hx', if_pos hy]
      have h1 : -(Real.pi / 2) < Real.arctan (y / x) :=
        Real.neg_pi_div_two_lt_arctan _
      linarith
    · rw [if_neg hx']
      by_cases hy0 : 0 < y
      · rw [if_pos hy0]; linarith
      · rw [if_neg hy0, if_neg (not_lt.mpr hy)]

/-- The distance the source's `haversineDistance` computes is nonnegative:
every claim that assumes the abstract distance parameter nonnegative is
thereby discharged for the real formula. -/
theorem haversineReal_nonneg (lat1 lon1 lat2 lon2 : ℝ) :
    0 ≤ haversineReal lat1 lon1 lat2 lon2 := by
  unfold haversineReal
  have h := atan2_nonneg (Real.sqrt (Real.sin ((lat2 - lat1) * Real.pi / 180 / 2) *
    Real.sin ((lat2 - lat1) * Real.pi / 180 / 2) +
    Real.cos (lat1 * Real.pi / 180) * Real.cos (lat2 * Real.pi / 180) *
    Real.sin ((lon2 - lon1) * Real.pi / 180 / 2) *
    Real.sin ((lon2 - lon1) * Real.pi / 180 / 2)))
    (Real.sqrt (1 - (Real.sin ((lat2 - lat1) * Real.pi / 180 / 2) *
    Real.sin ((lat2 - lat1) * Real.pi / 180 / 2) +
    Real.cos (lat1 * Real.pi / 180) * Real.cos (lat2 * Real.pi / 180) *
    Real.sin ((lon2 - lon1) * Real.pi / 180 / 2) *
    Real.sin ((lon2 - lon1) * Real.pi / 180 / 2))))
    (Real.sqrt_nonneg _)
  positivity

/-! ## Lemmas about the map operations -/

theorem mget_eq_none_iff {α : Type} (m : List (String × α)) (k : String) :
    mget m k = none ↔ ∀ p ∈ m, p.1 ≠ k := by
  induction m with
  | nil => simp [mget]
  | cons p m ih =>
    by_cases h : p.1 = k
    · simp [mget, h]
    · simp [mget, h, ih]

theorem mget_split {α : Type} {m : List (String × α)} {k : String} {v : α}
    (h : mget m k = some v) :
    ∃ pre post, m = pre ++ (k, v) :: post ∧ ∀ p ∈ pre, p.1 ≠ k := by
  induction m with
  | nil => simp [mget] at h
  | cons p m ih =>
    by_cases hp : p.1 = k
    · rw [mget, if_pos hp] at h
      have hv : p.2 = v := Option.some.inj h
      cases p
      simp only at hp hv
      subst hp
      subst hv
      exact ⟨[], m, by simp, by simp⟩
    · rw [mget, if_neg hp] at h
      obtain ⟨pre, post, hm, hpre⟩ := ih h
      exact ⟨p :: pre, post, by simp [hm], by
        intro q hq
        rcases List.mem_cons.mp hq with rfl | hq
        · exact hp
        · exact hpre q hq⟩

theorem eq_of_mem_of_mget_nodup {α : Type} {m : List (String × α)}
    (hnd : (m.map Prod.fst).Nodup) {p : String × α} (hp : p ∈ m) {v : α}
    (h : mget m p.1 = some v) : p.2 = v := by
  obtain ⟨pre, post, hm, hpre⟩ := mget_split h
  subst hm
  rcases List.mem_append.mp hp with hmem | hmem
  · exact absurd rfl (hpre p hmem)
  · rcases List.mem_cons.mp hmem with heq | hmem
    · rw [heq]
    · exfalso
      have h1 : p.1 ∈ post.map Prod.fst := List.mem_map_of_mem Prod.fst hmem
      have h2 : (p.1 :: post.map Prod.fst).Nodup := by
        have hr := hnd
        rw [List.map_append] at hr
        simpa using hr.of_append_right
      exact (List.nodup_cons.mp h2).1 h1

theorem mget_mpush_self {α : Type} (m : List (String × List α)) (k : String)
    (v : α) : mget (mpush m k v) k = some ((mget m k).getD [] ++ [v]) := by
  induction m with
  | nil => simp [mget, mpush]
  | cons p m ih =>
    by_cases h : p.1 = k
    · simp [mget, mpush, h]
    · simp [mget, mpush, h, ih]

theorem mget_mpush_ne {α : Type} (m : List (String × List α)) {k k' : String}
    (h : k ≠ k') (v : α) : mget (mpush m k v) k' = mget m k' := by
  induction m with
  | nil => simp [mget, mpush, h]
  | cons p m ih =>
    have h' : k' ≠ k := Ne.symm h
    by_cases hp : p.1 = k
    · simp [mget, mpush, hp, h, h', hp ▸ h]
    · by_cases hp' : p.1 = k'
      · simp [mget, mpush, hp, hp', h']
      · simp [mget, mpush, hp, hp', ih]

theorem mget_map_snd_keyed {α β : Type} (g : String → α → β)
    (m : List (String × α)) (k : String) :
    mget (m.map fun p => (p.1, g p.1 p.2)) k = (mget m k).map (g k) := by
  induction m with
  | nil => simp [mget]
  | cons p m ih =>
    by_cases h : p.1 = k
    · subst h; simp [mget, ih]
    · simp [mget, h, ih]

theorem mget_foldl_mpush_some {β α : Type} (key : β → String) (val : β → α) :
    ∀ (rows : List β) (m : List (String × List α)) (k : String)
      (l : List α), mget m k = some l →
      mget (rows.foldl (fun acc r => mpush acc (key r) (val r)) m) k =
        some (l ++ (rows.filter fun r => key r == k).map val)
  | [], m, k, l, h => by simpa using h
  | r :: rows, m, k, l, h => by
    by_cases hk : key r = k
    · subst hk
      have hstep : mget (mpush m (key r) (val r)) (key r) = some (l ++ [val r]) := by
        rw [mget_mpush_self, h]
        rfl
      have hrec := mget_foldl_mpush_some key val rows
        (mpush m (key r) (val r)) (key r) (l ++ [val r]) hstep
      rw [List.foldl_cons, hrec]
      simp
    · have hstep : mget (mpush m (key r) (val r)) k = some l := by
        rw [mget_mpush_ne m hk (val r), h]
      have hrec := mget_foldl_mpush_some key val rows
        (mpush m (key r) (val r)) k l hstep
      rw [List.foldl_cons, hrec]
      simp [List.filter_cons, hk]

theorem mget_foldl_mpush_none {β α : Type} (key : β → String) (val : β → α) :
    ∀ (rows : List β) (m : List (String × List α)) (k : String),
      mget m k = none →
      mget (rows.foldl (fun acc r => mpush acc (key r) (val r)) m) k =
        match (rows.filter fun r => key r == k).map val with
        | [] => none
        | l => some l
  | [], m, k, h => by simpa using h
  | r :: rows, m, k, h => by
    by_cases hk : key r = k
    · subst hk
      have hstep : mget (mpush m (key r) (val r)) (key r) = some [val r] := by
        rw [mget_mpush_self, h]
        rfl
      have hrec := mget_foldl_mpush_some key val rows
        (mpush m (key r) (val r)) (key r) [val r] hstep
      rw [List.foldl_cons, hrec]
      simp
    · have hstep : mget (mpush m (key r) (val r)) k = none := by
        rw [mget_mpush_ne m hk (val r), h]
      have hrec := mget_foldl_mpush_none key val rows
        (mpush m (key r) (val r)) k hstep
      rw [List.foldl_cons, hrec]
      simp [List.filter_cons, hk]

/-! ## Lemmas about the calendar resolver -/

theorem mem_setAdd {l : List String} {x y : String} :
    y ∈ setAdd l x ↔ y ∈ l ∨ y = x := by
  by_cases h : x ∈ l
  · simp only [setAdd, if_pos h]
    constructor
    · exact Or.inl
    · rintro (hy | rfl)
      · exact hy
      · exact h
  · simp [setAdd, if_neg h]

theorem setAdd_nodup {l : List String} {x : String} (h : l.Nodup) :
    (setAdd l x).Nodup := by
  by_cases hx : x ∈ l
  · simpa [setAdd, if_pos hx] using h
  · simp only [setAdd, if_neg hx]
    rw [List.nodup_append]
    exact ⟨h, List.nodup_singleton x,
      fun a ha hax => hx ((List.mem_singleton.mp hax) ▸ ha)⟩

theorem mem_foldl_setAdd {α : Type} (cond : α → Bool) (key : α → String) :
    ∀ (l : List α) (acc : List String) (S : String),
      S ∈ l.foldl (fun acc p => if cond p then setAdd acc (key p) else acc) acc ↔
        S ∈ acc ∨ ∃ p ∈ l, key p = S ∧ cond p = true
  | [], acc, S => by simp
  | p :: l, acc, S => by
    rw [List.foldl_cons]
    by_cases hc : cond p
    · rw [if_pos hc, mem_foldl_setAdd cond key l]
      rw [mem_setAdd]
      constructor
      · rintro ((h | h) | h)
        · exact Or.inl h
        · exact Or.inr ⟨p, by simp, h.symm, hc⟩
        · obtain ⟨q, hq, hkq, hcq⟩ := h
          exact Or.inr ⟨q, List.mem_cons_of_mem p hq, hkq, hcq⟩
      · rintro (h | ⟨q, hq, hkq, hcq⟩)
        · exact Or.inl (Or.inl h)
        · rcases List.mem_cons.mp hq with rfl | hq
          · exact Or.inl (Or.inr hkq.symm)
          · exact Or.inr ⟨q, hq, hkq, hcq⟩
    · rw [if_neg hc, mem_foldl_setAdd cond key l]
      constructor
      · rintro (h | ⟨q, hq, hkq, hcq⟩)
        · exact Or.inl h
        · exact Or.inr ⟨q, List.mem_cons_of_mem p hq, hkq, hcq⟩
      · rintro (h | ⟨q, hq, hkq, hcq⟩)
        · exact Or.inl h
        · rcases List.mem_cons.mp hq with rfl | hq
          · exact absurd hcq (by simpa using hc)
          · exact Or.inr ⟨q, hq, hkq, hcq⟩

theorem nodup_foldl_setAdd {α : Type} (cond : α → Bool) (key : α → String) :
    ∀ (l : List α) (acc : List String), acc.Nodup →
      (l.foldl (fun acc p => if cond p then setAdd acc (key p) else acc) acc).Nodup
  | [], acc, h => h
  | p :: l, acc, h => by
    rw [List.foldl_cons]
    by_cases hc : cond p
    · rw [if_pos hc]
      exact nodup_foldl_setAdd cond key l _ (setAdd_nodup h)
    · rw [if_neg hc]
      exact nodup_foldl_setAdd cond key l _ h

theorem applyException_nodup {l : List String} {e : String × Int}
    (h : l.Nodup) : (applyException l e).Nodup := by
  unfold applyException
  split_ifs
  · exact setAdd_nodup h
  · exact h.erase e.1
  · exact h

theorem nodup_foldl_applyException :
    ∀ (exs : List (String × Int)) (l : List String), l.Nodup →
      (exs.foldl applyException l).Nodup
  | [], _, h => h
  | _ :: exs, _, h =>
    nodup_foldl_applyException exs _ (applyException_nodup h)

theorem mem_applyException_of_ne {l : List String} {e : String × Int}
    {S : String} (h : e.1 ≠ S) : S ∈ applyException l e ↔ S ∈ l := by
  unfold applyException
  split_ifs
  · rw [mem_setAdd]
    exact ⟨fun h' => h'.resolve_right fun hr => (h hr.symm), Or.inl⟩
  · exact List.mem_erase_of_ne (Ne.symm h)
  · exact Iff.rfl

theorem mem_foldl_applyException_of_no_key :
    ∀ (exs : List (String × Int)) (l : List String) (S : String),
      (∀ e ∈ exs, e.1 ≠ S) →
      (S ∈ exs.foldl applyException l ↔ S ∈ l)
  | [], l, S, _ => Iff.rfl
  | e :: exs, l, S, h => by
    rw [List.foldl_cons,
      mem_foldl_applyException_of_no_key exs _ S
        (fun q hq => h q (List.mem_cons_of_mem e hq)),
      mem_applyException_of_ne (h e (List.mem_cons_self e exs))]

/-- The effect of the exception pass on one service, for a date whose
exception map has (JavaScript-`Map`) unique keys. -/
theorem mem_foldl_applyException (exs : List (String × Int)) (l : List String)
    (S : String) (hnd : (exs.map Prod.fst).Nodup) (hl : l.Nodup) :
    S ∈ exs.foldl applyException l ↔
      (mget exs S = some 1 ∨
        (S ∈ l ∧ mget exs S ≠ some 1 ∧ mget exs S ≠ some 2)) := by
  cases hm : mget exs S with
  | none =>
    have hnk : ∀ e ∈ exs, e.1 ≠ S := (mget_eq_none_iff exs S).mp hm
    rw [mem_foldl_applyException_of_no_key exs l S hnk]
    simp
  | some ty =>
    obtain ⟨pre, post, hexs, hpre⟩ := mget_split hm
    subst hexs
    have hpost : ∀ e ∈ post, e.1 ≠ S := by
      intro e he
      have hr := hnd
      rw [List.map_append] at hr
      have h2 := hr.of_append_right
      simp only [List.map_cons, List.nodup_cons] at h2
      intro hcontra
      exact h2.1 (hcontra ▸ List.mem_map_of_mem Prod.fst he)
    have hprene : ∀ e ∈ pre, e.1 ≠ S := hpre
    rw [List.foldl_append, List.foldl_cons,
      mem_foldl_applyException_of_no_key post _ S hpost]
    have hl1 : S ∈ pre.foldl applyException l ↔ S ∈ l :=
      mem_foldl_applyException_of_no_key pre l S hprene
    have hl1nd : (pre.foldl applyException l).Nodup :=
      nodup_foldl_applyException pre l hl
    by_cases h1 : ty = 1
    · subst h1
      have hstep : applyException (pre.foldl applyException l) (S, 1) =
          setAdd (pre.foldl applyException l) S := by simp [applyException]
      rw [hstep]
      constructor
      · intro _
        exact Or.inl rfl
      · intro _
        exact mem_setAdd.mpr (Or.inr rfl)
    · by_cases h2 : ty = 2
      · subst h2
        have hstep : applyException (pre.foldl applyException l) (S, 2) =
            (pre.foldl applyException l).erase S := by simp [applyException]
        rw [hstep]
        constructor
        · intro hmem
          exact absurd hmem hl1nd.not_mem_erase
        · rintro (h | ⟨_, _, hne⟩)
          · exact absurd h (by simp)
          · exact absurd rfl hne
      · have hstep : applyException (pre.foldl applyException l) (S, ty) =
            pre.foldl applyException l := by
          simp [applyException, h1, h2]
        rw [hstep, hl1]
        simp [h1, h2]

/-- **C3.** For every date `D` in `YYYYMMDD` form and service `S` (with the
JavaScript-`Map` key uniqueness of the calendar and of `D`'s exception map,
which also gives `S` at most one exception on `D`): `S` is in
`getServicesOnDate D` iff `S` has a calendar row with
`start_date ≤ D ≤ end_date` (lexicographic, as the source compares strings)
whose weekday flag for `D`'s day of week is set and there is no REMOVE
(type 2) exception for `(D, S)` — or there is an ADD (type 1) exception for
`(D, S)`. -/
theorem C3_active_service_iff (db : GTFSDatabase) (D S : String)
    (hcal : (db.calendar.map Prod.fst).Nodup)
    (hexc : (((mget db.calendarDates D).getD []).map Prod.fst).Nodup) :
    S ∈ getServicesOnDate db D ↔
      ((∃ c, mget db.calendar S = some c ∧
          strLe c.start_date D = true ∧ strLe D c.end_date = true ∧
          weekdayFlag c
            (dayOfWeek (dateYear D) (dateMonth D) (dateDay D)) = true) ∧
        mget ((mget db.calendarDates D).getD []) S ≠ some 2) ∨
      mget ((mget db.calendarDates D).getD []) S = some 1 := by
  set dow := dayOfWeek (dateYear D) (dateMonth D) (dateDay D) with hdow
  set cond : String × CalendarEntry → Bool := fun p =>
    strLe p.2.start_date D && strLe D p.2.end_date && weekdayFlag p.2 dow
    with hcond
  have hbase :
      (db.calendar.foldl
        (fun acc p => if cond p then setAdd acc p.1 else acc) []).Nodup :=
    nodup_foldl_setAdd cond Prod.fst db.calendar [] List.nodup_nil
  have hGS : getServicesOnDate db D =
      ((mget db.calendarDates D).getD []).foldl applyException
        (db.calendar.foldl
          (fun acc p => if cond p then setAdd acc p.1 else acc) []) := rfl
  rw [hGS, mem_foldl_applyException _ _ S hexc hbase]
  have hscan := mem_foldl_setAdd cond Prod.fst db.calendar [] S
  simp only [List.not_mem_nil, false_or] at hscan
  have hcalpart :
      S ∈ db.calendar.foldl
        (fun acc p => if cond p then setAdd acc p.1 else acc) [] ↔
      ∃ c, mget db.calendar S = some c ∧
        strLe c.start_date D = true ∧ strLe D c.end_date = true ∧
        weekdayFlag c dow = true := by
    rw [hscan]
    constructor
    · rintro ⟨p, hp, hkey, hc⟩
      cases hv : mget db.calendar S with
      | none =>
        exact absurd hkey ((mget_eq_none_iff db.calendar S).mp hv p hp)
      | some c =>
        have : p.2 = c := by
          have := eq_of_mem_of_mget_nodup hcal hp (v := c) (by rw [hkey, hv])
          exact this
        refine ⟨c, rfl, ?_, ?_, ?_⟩ <;>
          · rw [← this]
            simp only [hcond, Bool.and_eq_true] at hc
            first
            | exact hc.1.1
            | exact hc.1.2
            | exact hc.2
    · rintro ⟨c, hc, h1, h2, h3⟩
      obtain ⟨pre, post, hm, _⟩ := mget_split hc
      refine ⟨(S, c), by rw [hm]; simp, rfl, ?_⟩
      simp only [hcond, Bool.and_eq_true]
      exact ⟨⟨h1, h2⟩, h3⟩
  rw [hcalpart]
  by_cases h1 : mget ((mget db.calendarDates D).getD []) S = some 1
  · simp [h1]
  · by_cases h2 : mget ((mget db.calendarDates D).getD []) S = some 2
    · simp [h1, h2]
    · simp [h1, h2]

/-- Witness for C3: the fixture `exceptionDb` satisfies the key-uniqueness
hypotheses, and the theorem applies at date 20250104 and service svc1. -/
theorem C3_active_service_iff_witness :
    (exceptionDb.calendar.map Prod.fst).Nodup ∧
      (((mget exceptionDb.calendarDates "20250104").getD []).map Prod.fst).Nodup ∧
      (("svc1" ∈ getServicesOnDate exceptionDb "20250104") ↔
        ((∃ c, mget exceptionDb.calendar "svc1" = some c ∧
            strLe c.start_date "20250104" = true ∧
            strLe "20250104" c.end_date = true ∧
            weekdayFlag c (dayOfWeek (dateYear "20250104")
              (dateMonth "20250104") (dateDay "20250104")) = true) ∧
          mget ((mget exceptionDb.calendarDates "20250104").getD []) "svc1" ≠
            some 2) ∨
        mget ((mget exceptionDb.calendarDates "20250104").getD []) "svc1" =
          some 1) :=
  ⟨by decide, by decide,
    C3_active_service_iff exceptionDb "20250104" "svc1" (by decide) (by decide)⟩

/-! ## Lemmas about the position resolver -/

theorem find?_eq_some_split {α : Type} {p : α → Bool} :
    ∀ {l : List α} {a : α}, l.find? p = some a →
      p a = true ∧ ∃ pre post, l = pre ++ a :: post ∧ ∀ x ∈ pre, p x = false
  | [], a, h => by simp [List.find?] at h
  | x :: l, a, h => by
    cases hx : p x with
    | true =>
      rw [List.find?_cons_of_pos _ hx] at h
      cases h
      exact ⟨hx, [], l, rfl, by simp⟩
    | false =>
      rw [List.find?_cons_of_neg _ (by simp [hx])] at h
      obtain ⟨hpa, pre, post, hl, hpre⟩ := find?_eq_some_split h
      exact ⟨hpa, x :: pre, post, by simp [hl], by
        intro y hy
        rcases List.mem_cons.mp hy with rfl | hy
        · exact hx
        · exact hpre y hy⟩

/-- A found bracket really brackets: `before ≤ expected ≤ after`. -/
theorem findBracket_le {expected : ℚ} :
    ∀ {pts : List ShapePoint} {bp ap : ShapePoint},
      findBracket expected pts = some (bp, ap) →
      bp.distance ≤ expected ∧ expected ≤ ap.distance
  | [], _, _, h => by simp [findBracket] at h
  | [_], _, _, h => by simp [findBracket] at h
  | p :: q :: rest, bp, ap, h => by
    rw [findBracket] at h
    by_cases hc : decide (p.distance ≤ expected) && decide (expected ≤ q.distance)
    · rw [if_pos hc] at h
      cases h
      simpa using hc
    · rw [if_neg hc] at h
      exact findBracket_le h

/-- Every feature the in-transit loop emits carries the loop's trip id. -/
theorem inTransitLoop_trip_id (db : GTFSDatabase) (tripId : String) (t : Nat) :
    ∀ (sts : List StopTime) (f : VehicleFeature),
      inTransitLoop db tripId t sts = some f → f.properties.trip_id = tripId
  | [], f, h => by simp [inTransitLoop] at h
  | [_], f, h => by simp [inTransitLoop] at h
  | a :: b :: rest, f, h => by
    simp only [inTransitLoop] at h
    split at h
    · split at h
      · exact inTransitLoop_trip_id db tripId t (b :: rest) f h
      · split at h
        · exact inTransitLoop_trip_id db tripId t (b :: rest) f h
        · split at h
          · exact inTransitLoop_trip_id db tripId t (b :: rest) f h
          · split at h
            · exact inTransitLoop_trip_id db tripId t (b :: rest) f h
            · split at h
              · rw [Option.some_inj] at h
                subst h
                rfl
              · exact Option.noConfusion h
    · exact inTransitLoop_trip_id db tripId t (b :: rest) f h

/-- `tripPosition` on a trip with no stop-times entry. -/
theorem tripPosition_of_no_stopTimes {db : GTFSDatabase} {tripId : String}
    (t : Nat) (h : mget db.stopTimes tripId = none) :
    tripPosition db tripId t = none := by
  simp [tripPosition, h]

/-- `tripPosition` on a trip with an empty stop-times list. -/
theorem tripPosition_of_empty_stopTimes {db : GTFSDatabase} {tripId : String}
    (t : Nat) (h : mget db.stopTimes tripId = some []) :
    tripPosition db tripId t = none := by
  simp [tripPosition, h]

/-- The service-window skip (gtfs-loader.js 625). -/
theorem tripPosition_of_outside_window {db : GTFSDatabase} {tripId : String}
    {t : Nat} {first : StopTime} {rest : List StopTime}
    (h : mget db.stopTimes tripId = some (first :: rest))
    (hout : t < timeToSeconds first.arrival_time ∨
      timeToSeconds
        ((first :: rest).getLast (List.cons_ne_nil first rest)).departure_time
        < t) :
    tripPosition db tripId t = none := by
  simp only [tripPosition, h]
  rw [if_pos hout]

/-- The at-stop outcome: in-window, first matching stop found and resolved. -/
theorem tripPosition_of_atStop {db : GTFSDatabase} {tripId : String}
    {t : Nat} {first : StopTime} {rest : List StopTime} {st : StopTime}
    {stop : Stop}
    (h : mget db.stopTimes tripId = some (first :: rest))
    (hin : ¬(t < timeToSeconds first.arrival_time ∨
      timeToSeconds
        ((first :: rest).getLast (List.cons_ne_nil first rest)).departure_time
        < t))
    (hfind : findAtStopMatch t (first :: rest) = some st)
    (hstop : mget db.stops st.stop_id = some stop) :
    tripPosition db tripId t = some (atStopFeature db tripId st stop) := by
  simp only [tripPosition, h]
  rw [if_neg hin]
  simp only [hfind, hstop]

/-- With no at-stop feature (no match at all), the result is the in-transit
loop's. -/
theorem tripPosition_of_noStopMatch {db : GTFSDatabase} {tripId : String}
    {t : Nat} {first : StopTime} {rest : List StopTime}
    (h : mget db.stopTimes tripId = some (first :: rest))
    (hin : ¬(t < timeToSeconds first.arrival_time ∨
      timeToSeconds
        ((first :: rest).getLast (List.cons_ne_nil first rest)).departure_time
        < t))
    (hfind : findAtStopMatch t (first :: rest) = none) :
    tripPosition db tripId t = inTransitLoop db tripId t (first :: rest) := by
  simp only [tripPosition, h]
  rw [if_neg hin]
  simp only [hfind]

/-- With a matching stop whose id does not resolve, the source breaks with
`position` still null and the in-transit loop runs. -/
theorem tripPosition_of_unresolvedStop {db : GTFSDatabase} {tripId : String}
    {t : Nat} {first : StopTime} {rest : List StopTime} {st : StopTime}
    (h : mget db.stopTimes tripId = some (first :: rest))
    (hin : ¬(t < timeToSeconds first.arrival_time ∨
      timeToSeconds
        ((first :: rest).getLast (List.cons_ne_nil first rest)).departure_time
        < t))
    (hfind : findAtStopMatch t (first :: rest) = some st)
    (hstop : mget db.stops st.stop_id = none) :
    tripPosition db tripId t = inTransitLoop db tripId t (first :: rest) := by
  simp only [tripPosition, h]
  rw [if_neg hin]
  simp only [hfind, hstop]

/-- Every feature `tripPosition` emits carries its trip id. -/
theorem tripPosition_trip_id {db : GTFSDatabase} {tripId : String} {t : Nat}
    {f : VehicleFeature} (h : tripPosition db tripId t = some f) :
    f.properties.trip_id = tripId := by
  cases hm : mget db.stopTimes tripId with
  | none => rw [tripPosition_of_no_stopTimes t hm] at h; exact Option.noConfusion h
  | some sts =>
    cases sts with
    | nil => rw [tripPosition_of_empty_stopTimes t hm] at h; exact Option.noConfusion h
    | cons first rest =>
      by_cases hout : t < timeToSeconds first.arrival_time ∨
        timeToSeconds
          ((first :: rest).getLast (List.cons_ne_nil first rest)).departure_time
          < t
      · rw [tripPosition_of_outside_window hm hout] at h
        exact Option.noConfusion h
      · cases hfind : findAtStopMatch t (first :: rest) with
        | none =>
          rw [tripPosition_of_noStopMatch hm hout hfind] at h
          exact inTransitLoop_trip_id db tripId t _ f h
        | some st =>
          cases hstop : mget db.stops st.stop_id with
          | none =>
            rw [tripPosition_of_unresolvedStop hm hout hfind hstop] at h
            exact inTransitLoop_trip_id db tripId t _ f h
          | some stop =>
            rw [tripPosition_of_atStop hm hout hfind hstop] at h
            rw [Option.some_inj] at h
            subst h
            rfl

/-- Membership in the resolver's output array. -/
theorem mem_getVehiclePositions {db : GTFSDatabase} {dk : String} {t : Nat}
    {f : VehicleFeature} :
    f ∈ getVehiclePositions db dk t ↔
      ∃ tid ∈ getTripsOnDate db dk, tripPosition db tid t = some f := by
  unfold getVehiclePositions
  rw [List.mem_filterMap]

/-- When the trip has no usable shape, the in-transit loop always falls
through its `continue` cases and yields nothing. -/
theorem inTransitLoop_eq_none_of_noShape {db : GTFSDatabase} {tripId : String}
    {t : Nat} (hns : tripShapeAvailable db tripId = none) :
    ∀ (sts : List StopTime), inTransitLoop db tripId t sts = none
  | [] => rfl
  | [_] => rfl
  | a :: b :: rest => by
    have hrec := @inTransitLoop_eq_none_of_noShape db tripId t hns (b :: rest)
    simp only [inTransitLoop]
    split
    · have hns' := hns
      unfold tripShapeAvailable at hns'
      cases hm : mget db.trips tripId with
      | none => exact hrec
      | some trip =>
        rw [hm] at hns'
        dsimp only at hns' ⊢
        by_cases hsid : trip.shape_id = ""
        · rw [if_pos hsid]
          exact hrec
        · rw [if_neg hsid] at hns' ⊢
          cases hsh : mget db.shapes trip.shape_id with
          | none => exact hrec
          | some pts =>
            rw [hsh] at hns'
            dsimp only at hns' ⊢
            have he : pts.isEmpty := by
              by_contra he
              rw [if_neg he] at hns'
              exact Option.noConfusion hns'
            rw [if_pos he]
            exact hrec
    · exact hrec

/-- With a usable shape, the in-transit loop is the bracket-and-interpolate
body applied at the first stop pair whose time interval contains `t`. -/
theorem inTransitLoop_eq_of_shape {db : GTFSDatabase} {tripId : String}
    {t : Nat} {trip : Trip} {pts : List ShapePoint}
    (htrip : mget db.trips tripId = some trip) (hsid : trip.shape_id ≠ "")
    (hsh : mget db.shapes trip.shape_id = some pts) (hne : pts.isEmpty = false) :
    ∀ (sts : List StopTime),
      inTransitLoop db tripId t sts =
        match findTransitPair t sts with
        | some (a, b) => transitBody db tripId trip t a b pts
        | none => none
  | [] => rfl
  | [_] => rfl
  | a :: b :: rest => by
    simp only [inTransitLoop, findTransitPair]
    split
    · rw [htrip]
      dsimp only
      rw [if_neg hsid, hsh]
      dsimp only
      rw [hne]
      rfl
    · exact inTransitLoop_eq_of_shape htrip hsid hsh hne (b :: rest)

/-- If no consecutive pair's open time interval contains `t`, the in-transit
scan finds nothing. -/
theorem findTransitPair_eq_none :
    ∀ {sts : List StopTime} {t : Nat},
      sts.Chain' (fun a b => ¬(timeToSeconds a.departure_time < t ∧
        t < timeToSeconds b.arrival_time)) →
      findTransitPair t sts = none
  | [], _, _ => rfl
  | [_], _, _ => rfl
  | a :: b :: rest, t, h => by
    rw [List.chain'_cons] at h
    rw [findTransitPair, if_neg h.1]
    exact findTransitPair_eq_none h.2

/-- The in-transit loop yields nothing when no pair matches, no matter
whether a shape is available. -/
theorem inTransitLoop_eq_none_of_noPair {db : GTFSDatabase} {tripId : String}
    {t : Nat} {sts : List StopTime} (h : findTransitPair t sts = none) :
    inTransitLoop db tripId t sts = none := by
  cases hav : tripShapeAvailable db tripId with
  | none => exact inTransitLoop_eq_none_of_noShape hav sts
  | some pts =>
    unfold tripShapeAvailable at hav
    cases hm : mget db.trips tripId with
    | none => rw [hm] at hav; exact Option.noConfusion hav
    | some trip =>
      rw [hm] at hav
      dsimp only at hav
      by_cases hsid : trip.shape_id = ""
      · rw [if_pos hsid] at hav; exact Option.noConfusion hav
      · rw [if_neg hsid] at hav
        cases hsh : mget db.shapes trip.shape_id with
        | none => rw [hsh] at hav; exact Option.noConfusion hav
        | some pts' =>
          rw [hsh] at hav
          dsimp only at hav
          by_cases he : pts'.isEmpty
          · rw [if_pos he] at hav; exact Option.noConfusion hav
          · rw [inTransitLoop_eq_of_shape hm hsid hsh (by simpa using he) sts, h]

/-! ## Claim theorems -/

/-- **C1 (evaluation at the failing input).** The success body of
`GET /vehicles/at/2025-01-03T09:00:15` against `atStopDb` carries `vehicles`
as a positional **array** of features — the single active trip's feature sits
at index 0 with its trip id only inside `properties` — not as an object
keyed by `trip_id` as the claim (and the project's own README and client)
describe.  `vehicle_count` is the array length. -/
theorem C1_vehicles_body_is_array :
    vehiclesAtBody atStopDb "2025-01-03T09:00:15" ⟨2025, 1, 3, 9, 0, 15⟩ none =
      { datetime := "2025-01-03T09:00:15", vehicle_count := 1
        vehicles := [atStopDbFeature] } ∧
    atStopDbFeature.properties.trip_id = "t1" := by
  constructor
  · decide
  · rfl

/-- **C2 (evaluation at the failing input).** The handler body of
`GET /vehicles/at/:datetime` never reads the `routes` query parameter: the
response is identical for every value of the parameter, and a request with
`routes=r2` still receives the trip of route `r1` — nothing is pruned. -/
theorem C2_routes_query_ignored :
    (∀ (db : GTFSDatabase) (s : String) (p : DateTimeParts)
      (q1 q2 : Option String), vehiclesAtBody db s p q1 = vehiclesAtBody db s p q2) ∧
    (vehiclesAtBody atStopDb "2025-01-03T09:00:15" ⟨2025, 1, 3, 9, 0, 15⟩
        (some "r2")).vehicles = [atStopDbFeature] ∧
    atStopDbFeature.properties.route = some (blankRoute "r1") ∧
    (blankRoute "r1").route_id ≠ "r2" :=
  ⟨fun _ _ _ _ _ => rfl, by decide, rfl, by decide⟩

/-- **C4.** For an active trip with `t` in its service window whose stop-times
list (sorted by `stop_sequence`) has a first match `st` with
`arrival ≤ t ≤ departure`, and whose matched stop resolves — as the claim's
references to the stop's name and coordinates presuppose — the emitted
feature is the at-stop feature: status `at_stop`, geometry
`[stop_lon, stop_lat]`, properties carrying the stop's id and name; the match
is minimal in `stop_sequence` among all matches; and the result is that
feature (the in-transit computation never runs), which is what the active
trip contributes to `getVehiclePositions`. -/
theorem C4_at_stop (db : GTFSDatabase) (tripId : String) (t : Nat)
    (first st : StopTime) (rest : List StopTime) (stop : Stop)
    (hsts : mget db.stopTimes tripId = some (first :: rest))
    (hin : ¬(t < timeToSeconds first.arrival_time ∨
      timeToSeconds
        ((first :: rest).getLast (List.cons_ne_nil first rest)).departure_time
        < t))
    (hfind : findAtStopMatch t (first :: rest) = some st)
    (hstop : mget db.stops st.stop_id = some stop)
    (hsorted : (first :: rest).Pairwise
      (fun a b => a.stop_sequence ≤ b.stop_sequence)) :
    tripPosition db tripId t = some (atStopFeature db tripId st stop) ∧
    (atStopFeature db tripId st stop).properties.status = "at_stop" ∧
    (atStopFeature db tripId st stop).lon = stop.stop_lon ∧
    (atStopFeature db tripId st stop).lat = stop.stop_lat ∧
    (atStopFeature db tripId st stop).properties.stop_id = some st.stop_id ∧
    (atStopFeature db tripId st stop).properties.stop_name =
      some stop.stop_name ∧
    (timeToSeconds st.arrival_time ≤ t ∧ t ≤ timeToSeconds st.departure_time) ∧
    (∀ st' ∈ first :: rest, timeToSeconds st'.arrival_time ≤ t →
      t ≤ timeToSeconds st'.departure_time →
      st.stop_sequence ≤ st'.stop_sequence) ∧
    ∀ dk, tripId ∈ getTripsOnDate db dk →
      atStopFeature db tripId st stop ∈ getVehiclePositions db dk t := by
  obtain ⟨hpred, pre, post, hl, hpre⟩ := find?_eq_some_split hfind
  have hmatch : timeToSeconds st.arrival_time ≤ t ∧
      t ≤ timeToSeconds st.departure_time := by
    simpa using hpred
  refine ⟨tripPosition_of_atStop hsts hin hfind hstop, rfl, rfl, rfl, rfl, rfl,
    hmatch, ?_, ?_⟩
  · intro st' hmem harr hdep
    rw [hl] at hmem hsorted
    rcases List.mem_append.mp hmem with hmem | hmem
    · exfalso
      have := hpre st' hmem
      simp [harr, hdep] at this
    · rcases List.mem_cons.mp hmem with rfl | hmem
      · exact le_refl _
      · have hcross := (List.pairwise_append.mp hsorted).2.1
        exact (List.pairwise_cons.mp hcross).1 st' hmem
  · intro dk htid
    exact mem_getVehiclePositions.mpr
      ⟨tripId, htid, tripPosition_of_atStop hsts hin hfind hstop⟩

/-- Witness for C4 at `atStopDb`, 2025-01-03 09:00:15. -/
theorem C4_at_stop_witness :
    mget atStopDb.stopTimes "t1" =
      some [blankStopTime "t1" "s1" "09:00:00" "09:00:30" 1 0] ∧
    tripPosition atStopDb "t1" 32415 =
      some (atStopFeature atStopDb
        (blankStopTime "t1" "s1" "09:00:00" "09:00:30" 1 0).trip_id
        (blankStopTime "t1" "s1" "09:00:00" "09:00:30" 1 0)
        (blankStop "s1" "First Avenue" 47 (-122))) := by
  constructor
  · decide
  · exact (C4_at_stop atStopDb "t1" 32415
      (blankStopTime "t1" "s1" "09:00:00" "09:00:30" 1 0)
      (blankStopTime "t1" "s1" "09:00:00" "09:00:30" 1 0) []
      (blankStop "s1" "First Avenue" 47 (-122))
      (by decide) (by decide) (by decide) (by decide) (by decide)).1

/-- **C6 (counterexample).** "Omits **exactly when** outside the window" is
false: at 10:05:00 the no-shape trip `t3` is inside its 10:00–10:10 window
(the right side of the claimed equivalence is false) yet it is omitted from
the output (the left side is true) because it is at no stop and has no shape
to interpolate on. -/
theorem C6_counterexample :
    ¬ ((∀ f ∈ getVehiclePositions noShapeDb "20250103" 36300,
          f.properties.trip_id ≠ "t3") ↔
        (36300 < timeToSeconds "10:00:00" ∨ timeToSeconds "10:10:00" < 36300)) := by
  decide

/-- **C6 (amended).** A trip with a non-empty stop-times list is omitted
**whenever** `t` is below its first stop's arrival seconds or above its last
stop's departure seconds, comparing raw seconds-since-midnight (values ≥
86 400 kept as-is, never wrapped); consequently a past-midnight trip (first
arrival > 86 399) is never matched by any query datetime, whose seconds are
at most 23·3600 + 59·60 + 59.  (The converse of the omission — the "exactly"
of the original claim — is refuted by `C6_counterexample`.) -/
theorem C6_window_skip (db : GTFSDatabase) (tripId : String)
    (first : StopTime) (rest : List StopTime)
    (hsts : mget db.stopTimes tripId = some (first :: rest)) :
    (∀ t : Nat, (t < timeToSeconds first.arrival_time ∨
        timeToSeconds
          ((first :: rest).getLast (List.cons_ne_nil first rest)).departure_time
          < t) →
      tripPosition db tripId t = none ∧
      ∀ dk : String, ∀ f ∈ getVehiclePositions db dk t,
        f.properties.trip_id ≠ tripId) ∧
    (∀ p : DateTimeParts, p.hour ≤ 23 → p.minute ≤ 59 → p.second ≤ 59 →
      86399 < timeToSeconds first.arrival_time →
      ∀ f ∈ getVehiclePositionsAt db p, f.properties.trip_id ≠ tripId) := by
  have key : ∀ t : Nat, (t < timeToSeconds first.arrival_time ∨
      timeToSeconds
        ((first :: rest).getLast (List.cons_ne_nil first rest)).departure_time
        < t) →
      tripPosition db tripId t = none ∧
      ∀ dk : String, ∀ f ∈ getVehiclePositions db dk t,
        f.properties.trip_id ≠ tripId := by
    intro t hout
    have hnone := tripPosition_of_outside_window hsts hout
    refine ⟨hnone, ?_⟩
    intro dk f hf heq
    obtain ⟨tid, _, htp⟩ := mem_getVehiclePositions.mp hf
    have := tripPosition_trip_id htp
    rw [heq] at this
    rw [← this] at htp
    rw [hnone] at htp
    exact Option.noConfusion htp
  refine ⟨key, ?_⟩
  intro p hh hm hs hpm f hf
  have hsec : secondsOf p ≤ 86399 := by
    unfold secondsOf
    omega
  exact (key (secondsOf p) (Or.inl (lt_of_le_of_lt hsec hpm))).2 (dateKeyOf p) f hf

/-- The code's expected distance is the spec's: the two differ only in the
order of the multiplication. -/
theorem codeExpectedDistance_eq_spec (t : Nat) (a b : StopTime) :
    codeExpectedDistance t a b =
      specExpectedDistance t (timeToSeconds a.departure_time)
        (timeToSeconds b.arrival_time) a.shape_dist_traveled
        b.shape_dist_traveled := by
  unfold codeExpectedDistance specExpectedDistance
  ring

/-- On a genuine bracket (`before ≤ after`), the code's guarded ratio equals
the spec's zero-denominator convention, so the interpolated feature is the
spec formula's point. -/
theorem inTransitFeature_eq_spec (db : GTFSDatabase) (tripId : String)
    (trip : Trip) (a b : StopTime) (ed : ℚ) (bp ap : ShapePoint)
    (hle : bp.distance ≤ ap.distance) :
    inTransitFeature db tripId trip a b ed bp ap =
      { properties :=
          { trip_id := tripId, route := mget db.routes trip.route_id
            stop_id := none, stop_name := none, shape_dist_traveled := ed
            from_stop_id := some a.stop_id, to_stop_id := some b.stop_id
            status := "in_transit" }
        lon := specInterpLon bp ap ed, lat := specInterpLat bp ap ed } := by
  unfold inTransitFeature specInterpLon specInterpLat specFraction
  dsimp only
  by_cases h : ap.distance - bp.distance = 0
  · rw [if_pos h, if_neg (show ¬(0 < ap.distance - bp.distance) by
      rw [h]; exact lt_irrefl 0)]
  · have hpos : 0 < ap.distance - bp.distance :=
      lt_of_le_of_ne (by linarith) (Ne.symm h)
    rw [if_neg h, if_pos hpos]

/-- Unpack a usable shape into its defining lookups. -/
theorem tripShapeAvailable_inv {db : GTFSDatabase} {tripId : String}
    {pts : List ShapePoint} (h : tripShapeAvailable db tripId = some pts) :
    ∃ trip, mget db.trips tripId = some trip ∧ trip.shape_id ≠ "" ∧
      mget db.shapes trip.shape_id = some pts ∧ pts.isEmpty = false := by
  unfold tripShapeAvailable at h
  cases hm : mget db.trips tripId with
  | none => rw [hm] at h; exact Option.noConfusion h
  | some trip =>
    rw [hm] at h
    dsimp only at h
    by_cases hsid : trip.shape_id = ""
    · rw [if_pos hsid] at h; exact Option.noConfusion h
    · rw [if_neg hsid] at h
      cases hsh : mget db.shapes trip.shape_id with
      | none => rw [hsh] at h; exact Option.noConfusion h
      | some pts' =>
        rw [hsh] at h
        dsimp only at h
        by_cases he : pts'.isEmpty
        · rw [if_pos he] at h; exact Option.noConfusion h
        · rw [if_neg he] at h
          cases h
          exact ⟨trip, rfl, hsid, hsh, by simpa using he⟩

/-- **C5.** For an active trip in its window with no at-stop match: if the
scan finds a first pair `(a, b)` with `departure[a] < t < arrival[b]` and the
trip has a non-empty shape and the bracket search succeeds, the emitted
feature has status `in_transit`, carries the bracketing stop ids, and its
coordinates and `shape_dist_traveled` are exactly the spec's formulas
(`time_ratio`, `expected_distance`, first bracketing segment, linear
interpolation with fraction 0 on a zero denominator); if the trip has no
usable shape, or the bracket search fails at that pair, the trip is omitted
without error. -/
theorem C5_in_transit (db : GTFSDatabase) (tripId : String) (t : Nat)
    (first : StopTime) (rest : List StopTime)
    (hsts : mget db.stopTimes tripId = some (first :: rest))
    (hin : ¬(t < timeToSeconds first.arrival_time ∨
      timeToSeconds
        ((first :: rest).getLast (List.cons_ne_nil first rest)).departure_time
        < t))
    (hnostop : findAtStopMatch t (first :: rest) = none) :
    (∀ a b trip pts bp ap,
      findTransitPair t (first :: rest) = some (a, b) →
      mget db.trips tripId = some trip → trip.shape_id ≠ "" →
      mget db.shapes trip.shape_id = some pts → pts.isEmpty = false →
      findBracket (codeExpectedDistance t a b) pts = some (bp, ap) →
      tripPosition db tripId t = some
        { properties :=
            { trip_id := tripId, route := mget db.routes trip.route_id
              stop_id := none, stop_name := none
              shape_dist_traveled :=
                specExpectedDistance t (timeToSeconds a.departure_time)
                  (timeToSeconds b.arrival_time) a.shape_dist_traveled
                  b.shape_dist_traveled
              from_stop_id := some a.stop_id, to_stop_id := some b.stop_id
              status := "in_transit" }
          lon := specInterpLon bp ap
            (specExpectedDistance t (timeToSeconds a.departure_time)
              (timeToSeconds b.arrival_time) a.shape_dist_traveled
              b.shape_dist_traveled)
          lat := specInterpLat bp ap
            (specExpectedDistance t (timeToSeconds a.departure_time)
              (timeToSeconds b.arrival_time) a.shape_dist_traveled
              b.shape_dist_traveled) }) ∧
    (tripShapeAvailable db tripId = none → tripPosition db tripId t = none) ∧
    (∀ a b pts, findTransitPair t (first :: rest) = some (a, b) →
      tripShapeAvailable db tripId = some pts →
      findBracket (codeExpectedDistance t a b) pts = none →
      tripPosition db tripId t = none) := by
  have hloop := tripPosition_of_noStopMatch hsts hin hnostop
  refine ⟨?_, ?_, ?_⟩
  · intro a b trip pts bp ap hpair htrip hsid hsh hne hbr
    rw [hloop, inTransitLoop_eq_of_shape htrip hsid hsh hne, hpair]
    have hble := findBracket_le hbr
    have hbled : bp.distance ≤ ap.distance := le_trans hble.1 hble.2
    dsimp only
    unfold transitBody
    rw [hbr]
    dsimp only
    rw [inTransitFeature_eq_spec db tripId trip a b _ bp ap hbled,
      codeExpectedDistance_eq_spec]
  · intro hns
    rw [hloop]
    exact inTransitLoop_eq_none_of_noShape hns _
  · intro a b pts hpair hav hbr
    obtain ⟨trip, htrip, hsid, hsh, hne⟩ := tripShapeAvailable_inv hav
    rw [hloop, inTransitLoop_eq_of_shape htrip hsid hsh hne, hpair]
    dsimp only
    unfold transitBody
    rw [hbr]

/-- Witness for C5 at `inTransitDb`, 10:05:00: the vehicle of trip `t2` sits
at the shape's midpoint. -/
theorem C5_in_transit_witness :
    tripPosition inTransitDb "t2" 36300 = some
      { properties :=
          { trip_id := "t2"
            route := mget inTransitDb.routes
              (blankTrip "t2" "r1" "svc1" "sh1").route_id
            stop_id := none, stop_name := none
            shape_dist_traveled :=
              specExpectedDistance 36300
                (timeToSeconds (blankStopTime "t2" "s1" "10:00:00" "10:00:00"
                  1 0).departure_time)
                (timeToSeconds (blankStopTime "t2" "s2" "10:10:00" "10:10:00"
                  2 1).arrival_time)
                (blankStopTime "t2" "s1" "10:00:00" "10:00:00"
                  1 0).shape_dist_traveled
                (blankStopTime "t2" "s2" "10:10:00" "10:10:00"
                  2 1).shape_dist_traveled
            from_stop_id :=
              some (blankStopTime "t2" "s1" "10:00:00" "10:00:00" 1 0).stop_id
            to_stop_id :=
              some (blankStopTime "t2" "s2" "10:10:00" "10:10:00" 2 1).stop_id
            status := "in_transit" }
        lon := specInterpLon ⟨0, 0, 1, 0⟩ ⟨0, 1, 2, 1⟩
          (specExpectedDistance 36300
            (timeToSeconds (blankStopTime "t2" "s1" "10:00:00" "10:00:00"
              1 0).departure_time)
            (timeToSeconds (blankStopTime "t2" "s2" "10:10:00" "10:10:00"
              2 1).arrival_time)
            (blankStopTime "t2" "s1" "10:00:00" "10:00:00"
              1 0).shape_dist_traveled
            (blankStopTime "t2" "s2" "10:10:00" "10:10:00"
              2 1).shape_dist_traveled)
        lat := specInterpLat ⟨0, 0, 1, 0⟩ ⟨0, 1, 2, 1⟩
          (specExpectedDistance 36300
            (timeToSeconds (blankStopTime "t2" "s1" "10:00:00" "10:00:00"
              1 0).departure_time)
            (timeToSeconds (blankStopTime "t2" "s2" "10:10:00" "10:10:00"
              2 1).arrival_time)
            (blankStopTime "t2" "s1" "10:00:00" "10:00:00"
              1 0).shape_dist_traveled
            (blankStopTime "t2" "s2" "10:10:00" "10:10:00"
              2 1).shape_dist_traveled) } := by
  have hbr : findBracket
      (codeExpectedDistance 36300
        (blankStopTime "t2" "s1" "10:00:00" "10:00:00" 1 0)
        (blankStopTime "t2" "s2" "10:10:00" "10:10:00" 2 1))
      [⟨0, 0, 1, 0⟩, ⟨0, 1, 2, 1⟩] =
      some (⟨0, 0, 1, 0⟩, ⟨0, 1, 2, 1⟩) := by
    have h1 : timeToSeconds "10:00:00" = 36000 := by decide
    have h2 : timeToSeconds "10:10:00" = 36600 := by decide
    simp [findBracket, codeExpectedDistance, blankStopTime, h1, h2]
    norm_num
  exact (C5_in_transit inTransitDb "t2" 36300
    (blankStopTime "t2" "s1" "10:00:00" "10:00:00" 1 0)
    [blankStopTime "t2" "s2" "10:10:00" "10:10:00" 2 1]
    (by decide) (by decide) (by decide)).1
    (blankStopTime "t2" "s1" "10:00:00" "10:00:00" 1 0)
    (blankStopTime "t2" "s2" "10:10:00" "10:10:00" 2 1)
    (blankTrip "t2" "r1" "svc1" "sh1")
    [⟨0, 0, 1, 0⟩, ⟨0, 1, 2, 1⟩] ⟨0, 0, 1, 0⟩ ⟨0, 1, 2, 1⟩
    (by decide) (by decide) (by decide) (by decide) (by decide) hbr

/-- Witness for C6 at `noShapeDb`: trip `t3` queried at 09:00:00 (before its
10:00:00 first arrival) is skipped. -/
theorem C6_window_skip_witness :
    mget noShapeDb.stopTimes "t3" =
      some [blankStopTime "t3" "s1" "10:00:00" "10:00:00" 1 0,
        blankStopTime "t3" "s2" "10:10:00" "10:10:00" 2 1] ∧
    tripPosition noShapeDb "t3" 32400 = none := by
  constructor
  · decide
  · exact ((C6_window_skip noShapeDb "t3"
      (blankStopTime "t3" "s1" "10:00:00" "10:00:00" 1 0)
      [blankStopTime "t3" "s2" "10:10:00" "10:10:00" 2 1]
      (by decide)).1 32400 (by decide)).1

/-- Walking the spec's per-stop time invariant down a chain: each departure is
at or before every later arrival. -/
theorem dep_le_arr_of_chain :
    ∀ (l : List StopTime) (a : StopTime),
      (a :: l).Chain' (fun x y =>
        timeToSeconds x.departure_time ≤ timeToSeconds y.arrival_time) →
      (∀ x ∈ a :: l, timeToSeconds x.arrival_time ≤ timeToSeconds x.departure_time) →
      ∀ b ∈ l, timeToSeconds a.departure_time ≤ timeToSeconds b.arrival_time
  | [], _, _, _, b, hb => absurd hb (List.not_mem_nil b)
  | b :: l, a, hc, had, c, hc' => by
    have hab : timeToSeconds a.departure_time ≤ timeToSeconds b.arrival_time :=
      (List.chain'_cons.mp hc).1
    rcases List.mem_cons.mp hc' with rfl | hc'
    · exact hab
    · have hbc := dep_le_arr_of_chain l b (List.chain'_cons.mp hc).2
        (fun x hx => had x (List.mem_cons_of_mem a hx)) c hc'
      have hbb : timeToSeconds b.arrival_time ≤ timeToSeconds b.departure_time :=
        had b (by simp)
      exact le_trans hab (le_trans hbb hbc)

theorem pairwise_dep_le_arr :
    ∀ {sts : List StopTime},
      sts.Chain' (fun a b =>
        timeToSeconds a.departure_time ≤ timeToSeconds b.arrival_time) →
      (∀ x ∈ sts, timeToSeconds x.arrival_time ≤ timeToSeconds x.departure_time) →
      sts.Pairwise (fun a b =>
        timeToSeconds a.departure_time ≤ timeToSeconds b.arrival_time)
  | [], _, _ => List.Pairwise.nil
  | a :: l, hc, had => by
    rw [List.pairwise_cons]
    exact ⟨dep_le_arr_of_chain l a hc had,
      pairwise_dep_le_arr (List.chain'_cons'.mp hc).2
        (fun x hx => had x (List.mem_cons_of_mem a hx))⟩

/-- Under the spec's time invariant, an at-stop match rules out every
in-transit pair: the dwell interval of the matched stop covers `t` and the
chain pushes every other pair's open interval away from it. -/
theorem findTransitPair_none_of_match {sts : List StopTime} {t : Nat}
    {st : StopTime}
    (hchain : sts.Chain' (fun a b =>
      timeToSeconds a.departure_time ≤ timeToSeconds b.arrival_time))
    (had : ∀ x ∈ sts, timeToSeconds x.arrival_time ≤ timeToSeconds x.departure_time)
    (hfind : findAtStopMatch t sts = some st) :
    findTransitPair t sts = none := by
  obtain ⟨hpred, pre, post, hl, hpre⟩ := find?_eq_some_split hfind
  have hmatch : timeToSeconds st.arrival_time ≤ t ∧
      t ≤ timeToSeconds st.departure_time := by simpa using hpred
  have hpw := pairwise_dep_le_arr hchain had
  rw [hl] at hpw had ⊢
  have hsplit := List.pairwise_append.mp hpw
  have hApre : ∀ x ∈ pre, timeToSeconds x.arrival_time ≤ t := by
    intro x hx
    have h1 : timeToSeconds x.departure_time ≤ timeToSeconds st.arrival_time :=
      hsplit.2.2 x hx st (by simp)
    have h2 : timeToSeconds x.arrival_time ≤ timeToSeconds x.departure_time :=
      had x (List.mem_append_left _ hx)
    exact le_trans h2 (le_trans h1 hmatch.1)
  have hBpost : ∀ x ∈ post, t ≤ timeToSeconds x.departure_time := by
    intro x hx
    have h1 : timeToSeconds st.departure_time ≤ timeToSeconds x.arrival_time :=
      (List.pairwise_cons.mp hsplit.2.1).1 x hx
    have h2 : timeToSeconds x.arrival_time ≤ timeToSeconds x.departure_time :=
      had x (List.mem_append_right _ (List.mem_cons_of_mem st hx))
    exact le_trans hmatch.2 (le_trans h1 h2)
  apply findTransitPair_eq_none
  rw [List.chain'_append]
  refine ⟨?_, ?_, ?_⟩
  · apply List.Pairwise.chain'
    apply List.pairwise_of_forall_mem_list
    intro a _ b hb
    intro hcontra
    exact absurd hcontra.2 (not_lt.mpr (hApre b hb))
  · apply List.Pairwise.chain'
    apply List.pairwise_of_forall_mem_list
    intro a ha b _
    intro hcontra
    rcases List.mem_cons.mp ha with rfl | ha
    · exact absurd hcontra.1 (not_lt.mpr hmatch.2)
    · exact absurd hcontra.1 (not_lt.mpr (hBpost a ha))
  · intro x _ y hy
    rw [List.head?_cons, Option.mem_some_iff] at hy
    subst hy
    intro hcontra
    exact absurd hcontra.2 (not_lt.mpr hmatch.1)

/-- Every feature the in-transit loop emits has the in-transit property set:
status `in_transit`, bracketing stop ids present, at-stop fields absent. -/
theorem inTransitLoop_shape (db : GTFSDatabase) (tripId : String) (t : Nat) :
    ∀ (sts : List StopTime) (f : VehicleFeature),
      inTransitLoop db tripId t sts = some f →
      f.properties.status = "in_transit" ∧ f.properties.from_stop_id.isSome ∧
        f.properties.to_stop_id.isSome ∧ f.properties.stop_id = none ∧
        f.properties.stop_name = none
  | [], f, h => by simp [inTransitLoop] at h
  | [_], f, h => by simp [inTransitLoop] at h
  | a :: b :: rest, f, h => by
    simp only [inTransitLoop] at h
    split at h
    · split at h
      · exact inTransitLoop_shape db tripId t (b :: rest) f h
      · split at h
        · exact inTransitLoop_shape db tripId t (b :: rest) f h
        · split at h
          · exact inTransitLoop_shape db tripId t (b :: rest) f h
          · split at h
            · exact inTransitLoop_shape db tripId t (b :: rest) f h
            · split at h
              · rw [Option.some_inj] at h
                subst h
                exact ⟨rfl, rfl, rfl, rfl, rfl⟩
              · exact Option.noConfusion h
    · exact inTransitLoop_shape db tripId t (b :: rest) f h

/-- **C10.** For every query, `getVehiclePositions` emits at most one feature
per trip id (whenever the active trip-id list is duplicate-free, as unique
`trip_id`s in trips.txt guarantee); every emitted feature carries exactly one
of the two property sets — the at-stop one or the in-transit one, never
mixed; and a trip with no stop-times entry, an empty stop-times list, or
(under the spec's per-trip time invariant) an at-stop match whose stop id
does not resolve in the stops table, contributes nothing, without error. -/
theorem C10_output_wellformed (db : GTFSDatabase) (dk : String) (t : Nat) :
    ((getTripsOnDate db dk).Nodup →
      (getVehiclePositions db dk t).Pairwise
        (fun f g => f.properties.trip_id ≠ g.properties.trip_id)) ∧
    (∀ f ∈ getVehiclePositions db dk t,
      (f.properties.status = "at_stop" ∧ f.properties.stop_id.isSome ∧
        f.properties.stop_name.isSome ∧ f.properties.from_stop_id = none ∧
        f.properties.to_stop_id = none) ∨
      (f.properties.status = "in_transit" ∧ f.properties.from_stop_id.isSome ∧
        f.properties.to_stop_id.isSome ∧ f.properties.stop_id = none ∧
        f.properties.stop_name = none)) ∧
    (∀ tripId, mget db.stopTimes tripId = none →
      tripPosition db tripId t = none) ∧
    (∀ tripId, mget db.stopTimes tripId = some [] →
      tripPosition db tripId t = none) ∧
    (∀ tripId sts st, mget db.stopTimes tripId = some sts →
      (∀ x ∈ sts, timeToSeconds x.arrival_time ≤ timeToSeconds x.departure_time) →
      sts.Chain' (fun a b =>
        timeToSeconds a.departure_time ≤ timeToSeconds b.arrival_time) →
      findAtStopMatch t sts = some st →
      mget db.stops st.stop_id = none →
      tripPosition db tripId t = none) := by
  refine ⟨?_, ?_, ?_, ?_, ?_⟩
  · intro hnd
    unfold getVehiclePositions
    rw [List.pairwise_filterMap]
    refine List.Pairwise.imp ?_ hnd
    intro a b hab x hx y hy
    rw [Option.mem_def] at hx hy
    rw [tripPosition_trip_id hx, tripPosition_trip_id hy]
    exact hab
  · intro f hf
    obtain ⟨tid, _, htp⟩ := mem_getVehiclePositions.mp hf
    cases hm : mget db.stopTimes tid with
    | none =>
      rw [tripPosition_of_no_stopTimes t hm] at htp
      exact Option.noConfusion htp
    | some sts =>
      cases sts with
      | nil =>
        rw [tripPosition_of_empty_stopTimes t hm] at htp
        exact Option.noConfusion htp
      | cons first rest =>
        by_cases hout : t < timeToSeconds first.arrival_time ∨
          timeToSeconds ((first :: rest).getLast
            (List.cons_ne_nil first rest)).departure_time < t
        · rw [tripPosition_of_outside_window hm hout] at htp
          exact Option.noConfusion htp
        · cases hfind : findAtStopMatch t (first :: rest) with
          | none =>
            rw [tripPosition_of_noStopMatch hm hout hfind] at htp
            exact Or.inr (inTransitLoop_shape db tid t _ f htp)
          | some st =>
            cases hstop : mget db.stops st.stop_id with
            | none =>
              rw [tripPosition_of_unresolvedStop hm hout hfind hstop] at htp
              exact Or.inr (inTransitLoop_shape db tid t _ f htp)
            | some stop =>
              rw [tripPosition_of_atStop hm hout hfind hstop] at htp
              rw [Option.some_inj] at htp
              subst htp
              exact Or.inl ⟨rfl, rfl, rfl, rfl, rfl⟩
  · intro tripId hm
    exact tripPosition_of_no_stopTimes t hm
  · intro tripId hm
    exact tripPosition_of_empty_stopTimes t hm
  · intro tripId sts st hm had hchain hfind hstop
    cases sts with
    | nil => simp [findAtStopMatch] at hfind
    | cons first rest =>
      by_cases hout : t < timeToSeconds first.arrival_time ∨
        timeToSeconds ((first :: rest).getLast
          (List.cons_ne_nil first rest)).departure_time < t
      · exact tripPosition_of_outside_window hm hout
      · rw [tripPosition_of_unresolvedStop hm hout hfind hstop]
        exact inTransitLoop_eq_none_of_noPair
          (findTransitPair_none_of_match hchain had hfind)

/-- Witness for C10, instantiated at `atStopDb`, 2025-01-03 09:00:15, with
the duplicate-free-trips hypothesis discharged. -/
theorem C10_output_wellformed_witness :
    (getTripsOnDate atStopDb "20250103").Nodup ∧
      (getVehiclePositions atStopDb "20250103" 32415).Pairwise
        (fun f g => f.properties.trip_id ≠ g.properties.trip_id) :=
  ⟨by decide, (C10_output_wellformed atStopDb "20250103" 32415).1 (by decide)⟩

/-! ## Lemmas about the dataset builder -/

theorem rel_head_of_chain' {α : Type} {R : α → α → Prop}
    (htrans : ∀ a b c, R a b → R b c → R a c) :
    ∀ (l : List α) (a : α), (a :: l).Chain' R → ∀ b ∈ l, R a b
  | [], _, _, b, hb => absurd hb (List.not_mem_nil b)
  | b :: l, a, hc, c, hc' => by
    have hab : R a b := (List.chain'_cons.mp hc).1
    rcases List.mem_cons.mp hc' with rfl | hc'
    · exact hab
    · exact htrans a b c hab
        (rel_head_of_chain' htrans l b (List.chain'_cons.mp hc).2 c hc')

theorem pairwise_of_chain' {α : Type} {R : α → α → Prop}
    (htrans : ∀ a b c, R a b → R b c → R a c) :
    ∀ {l : List α}, l.Chain' R → l.Pairwise R
  | [], _ => List.Pairwise.nil
  | a :: l, hc => by
    rw [List.pairwise_cons]
    exact ⟨rel_head_of_chain' htrans l a hc,
      pairwise_of_chain' htrans (List.chain'_cons'.mp hc).2⟩

/-- The trip's entry in the loaded stop times: the trip's rows in feed order,
sorted by `stop_sequence`, with computed distances. -/
theorem mget_loadStopTimes (hav : ℚ → ℚ → ℚ → ℚ → ℚ)
    (trips : List (String × Trip)) (stops : List (String × Stop))
    (shapes : List (String × List ShapePoint)) (rows : List StopTimeRow)
    (tid : String) :
    mget (loadStopTimes hav trips stops shapes rows) tid =
      match (rows.filter fun r => r.trip_id == tid).map rawOfStopTimeRow with
      | [] => none
      | p :: ps => some (computeStopDistances hav trips stops shapes tid
          ((p :: ps).insertionSort byStopSeqLe)) := by
  have hform : loadStopTimes hav trips stops shapes rows =
      (List.foldl (fun m r => mpush m r.trip_id (rawOfStopTimeRow r)) [] rows).map
        (fun p => (p.1,
          (fun k l => computeStopDistances hav trips stops shapes k
            (l.insertionSort byStopSeqLe)) p.1 p.2)) := rfl
  rw [hform,
    mget_map_snd_keyed
      (fun k l => computeStopDistances hav trips stops shapes k
        (l.insertionSort byStopSeqLe))
      (List.foldl (fun m r => mpush m r.trip_id (rawOfStopTimeRow r)) [] rows)
      tid,
    mget_foldl_mpush_none
      (fun r : StopTimeRow => r.trip_id) rawOfStopTimeRow rows [] tid rfl]
  cases (rows.filter fun r => r.trip_id == tid).map rawOfStopTimeRow with
  | nil => rfl
  | cons p ps => rfl

/-- The shape's entry in the loaded shapes: its rows' points in feed order,
sorted by `shape_pt_sequence`, with cumulative distances. -/
theorem mget_loadShapes (hav : ℚ → ℚ → ℚ → ℚ → ℚ) (rows : List ShapeRow)
    (sid : String) :
    mget (loadShapes hav rows) sid =
      match (rows.filter fun r => r.shape_id == sid).map pointOfShapeRow with
      | [] => none
      | p :: ps => some (computeDistances hav
          ((p :: ps).insertionSort bySeqLe)) := by
  have hform : loadShapes hav rows =
      (List.foldl (fun m r => mpush m r.shape_id (pointOfShapeRow r)) [] rows).map
        (fun p => (p.1,
          (fun _ l => computeDistances hav (l.insertionSort bySeqLe))
            p.1 p.2)) := rfl
  rw [hform,
    mget_map_snd_keyed
      (fun _ l => computeDistances hav (l.insertionSort bySeqLe))
      (List.foldl (fun m r => mpush m r.shape_id (pointOfShapeRow r)) [] rows)
      sid,
    mget_foldl_mpush_none
      (fun r : ShapeRow => r.shape_id) pointOfShapeRow rows [] sid rfl]
  cases (rows.filter fun r => r.shape_id == sid).map pointOfShapeRow with
  | nil => rfl
  | cons p ps => rfl

/-- The distance pass does not touch the stop sequences. -/
theorem stLoop_map_seq (hav : ℚ → ℚ → ℚ → ℚ → ℚ)
    (stops : List (String × Stop)) (so : Option (List ShapePoint)) :
    ∀ (ts : List RawStopTime) (pr : RawStopTime) (pd : ℚ),
      (stLoop hav stops so pr pd ts).map (·.stop_sequence) =
        ts.map (·.stop_sequence)
  | [], _, _ => rfl
  | cur :: rest, pr, pd => by
    simp only [stLoop, List.map_cons, mkStopTime]
    exact congrArg _ (stLoop_map_seq hav stops so rest cur _)

theorem computeStopDistances_map_seq (hav : ℚ → ℚ → ℚ → ℚ → ℚ)
    (trips : List (String × Trip)) (stops : List (String × Stop))
    (shapes : List (String × List ShapePoint)) (tid : String)
    (times : List RawStopTime) :
    (computeStopDistances hav trips stops shapes tid times).map
      (·.stop_sequence) = times.map (·.stop_sequence) := by
  cases times with
  | nil => rfl
  | cons first rest =>
    simp only [computeStopDistances, List.map_cons, mkStopTime]
    exact congrArg _ (stLoop_map_seq hav stops _ rest first _)

/-- One fallback step never decreases the running distance. -/
theorem stSdt_ge (hav : ℚ → ℚ → ℚ → ℚ → ℚ)
    (hnn : ∀ a b c d, 0 ≤ hav a b c d) (stops : List (String × Stop))
    {so : Option (List ShapePoint)} (hso : so = none ∨ so = some [])
    (pr : RawStopTime) (pd : ℚ) (cur : RawStopTime) :
    pd ≤ stSdt hav stops so (some (pr, pd)) cur := by
  rcases hso with rfl | rfl <;>
  · cases hcur : mget stops cur.stop_id <;>
      cases hprev : mget stops pr.stop_id <;>
      · simp only [stSdt, hcur, hprev]
        first
        | exact le_refl pd
        | exact le_add_of_nonneg_right (hnn _ _ _ _)

/-- Fallback distances are non-decreasing along the trip. -/
theorem stLoop_chain_sdt (hav : ℚ → ℚ → ℚ → ℚ → ℚ)
    (hnn : ∀ a b c d, 0 ≤ hav a b c d) (stops : List (String × Stop))
    {so : Option (List ShapePoint)} (hso : so = none ∨ so = some []) :
    ∀ (ts : List RawStopTime) (pr : RawStopTime) (pd : ℚ),
      (mkStopTime pr pd :: stLoop hav stops so pr pd ts).Chain'
        (fun a b => a.shape_dist_traveled ≤ b.shape_dist_traveled)
  | [], _, _ => List.chain'_singleton _
  | cur :: rest, pr, pd => by
    rw [stLoop, List.chain'_cons]
    exact ⟨stSdt_ge hav hnn stops hso pr pd cur,
      stLoop_chain_sdt hav hnn stops hso rest cur _⟩

/-- **C7 (counterexample).** On `projFeed` — first stop on the shape's far
endpoint, second on its near endpoint, plus a duplicated `stop_sequence` —
the loaded trip's `stop_sequence`s are not strictly increasing and its
projected `shape_dist_traveled`s decrease.  (`sqDist` stands in for the
float haversine; every comparison it decides — a zero distance against a
positive one — is decided identically by the real formula.) -/
theorem C7_counterexample :
    ¬ (((mget (loadStopTimes sqDist (loadTrips projFeed.tripRows).1
          (loadStops projFeed.stopRows) (loadShapes sqDist projFeed.shapeRows)
          projFeed.stopTimeRows) "t1").getD []).Pairwise
            (fun a b => a.stop_sequence < b.stop_sequence) ∧
        ((mget (loadStopTimes sqDist (loadTrips projFeed.tripRows).1
          (loadStops projFeed.stopRows) (loadShapes sqDist projFeed.shapeRows)
          projFeed.stopTimeRows) "t1").getD []).Chain'
            (fun a b => a.shape_dist_traveled ≤ b.shape_dist_traveled)) := by
  have heval : (mget (loadStopTimes sqDist (loadTrips projFeed.tripRows).1
      (loadStops projFeed.stopRows) (loadShapes sqDist projFeed.shapeRows)
      projFeed.stopTimeRows) "t1").getD [] =
      [mkStopTime (rawOfStopTimeRow
          (blankStopTimeRow "t1" "s1" "10:00:00" "10:01:00" 1 "")) 1,
       mkStopTime (rawOfStopTimeRow
          (blankStopTimeRow "t1" "s2" "10:05:00" "10:06:00" 2 "")) 0,
       mkStopTime (rawOfStopTimeRow
          (blankStopTimeRow "t1" "s1" "10:10:00" "10:11:00" 2 "")) 1] := by
    simp [loadStopTimes, loadTrips, loadStops, loadShapes, projFeed, mpush,
      mget, mset, rawOfStopTimeRow, blankStopTimeRow, blankShapeRow, blankStop,
      blankTrip, blankRoute, pointOfShapeRow, computeDistances, distLoop,
      computeStopDistances, shapeOptOf, stLoop, stSdt, findClosestPointOnShape,
      fcpLoop, mkStopTime, sqDist, byStopSeqLe, bySeqLe]
  rw [heval]
  rintro ⟨hstrict, hchain⟩
  have h1 := (List.chain'_cons.mp hchain).1
  simp only [mkStopTime] at h1
  norm_num at h1

/-- **C7 (amended).** After load, each trip's stop-time list is sorted by
`stop_sequence` (non-decreasing; strictly increasing when the feed has no
duplicate `stop_sequence` for the trip), and its `shape_dist_traveled`s are
non-decreasing whenever the trip has no usable shape, so every distance comes
from the stop-to-stop fallback.  (When a shape exists, the nearest-point
projection does not guarantee monotone distances — `C7_counterexample`.) -/
theorem C7_sorted_sequences (hav : ℚ → ℚ → ℚ → ℚ → ℚ)
    (hnn : ∀ a b c d, 0 ≤ hav a b c d) (trips : List (String × Trip))
    (stops : List (String × Stop)) (shapes : List (String × List ShapePoint))
    (rows : List StopTimeRow) (tid : String) (sts : List StopTime)
    (hsts : mget (loadStopTimes hav trips stops shapes rows) tid = some sts) :
    sts.Pairwise (fun a b => a.stop_sequence ≤ b.stop_sequence) ∧
    (((rows.filter fun r => r.trip_id == tid).map (·.stop_sequence)).Nodup →
      sts.Pairwise (fun a b => a.stop_sequence < b.stop_sequence)) ∧
    ((shapeOptOf trips shapes tid = none ∨ shapeOptOf trips shapes tid = some []) →
      sts.Pairwise
        (fun a b => a.shape_dist_traveled ≤ b.shape_dist_traveled)) := by
  rw [mget_loadStopTimes] at hsts
  cases hfl : (rows.filter fun r => r.trip_id == tid).map rawOfStopTimeRow with
  | nil => rw [hfl] at hsts; exact Option.noConfusion hsts
  | cons p ps =>
    rw [hfl] at hsts
    rw [Option.some_inj] at hsts
    have hsorted : ((p :: ps).insertionSort byStopSeqLe).Pairwise byStopSeqLe :=
      List.sorted_insertionSort byStopSeqLe (p :: ps)
    have hseq : sts.map (·.stop_sequence) =
        ((p :: ps).insertionSort byStopSeqLe).map (·.stop_sequence) := by
      rw [← hsts, computeStopDistances_map_seq]
    have hle : sts.Pairwise (fun a b => a.stop_sequence ≤ b.stop_sequence) := by
      have h2 : (((p :: ps).insertionSort byStopSeqLe).map
          (·.stop_sequence)).Pairwise (· ≤ ·) :=
        List.pairwise_map.mpr hsorted
      rw [← hseq] at h2
      exact List.pairwise_map.mp h2
    refine ⟨hle, ?_, ?_⟩
    · intro hnd
      have hperm : List.Perm
          (((p :: ps).insertionSort byStopSeqLe).map (·.stop_sequence))
          ((p :: ps).map (·.stop_sequence)) :=
        (List.perm_insertionSort byStopSeqLe (p :: ps)).map _
      have hrows : (p :: ps).map (·.stop_sequence) =
          (rows.filter fun r => r.trip_id == tid).map (·.stop_sequence) := by
        rw [← hfl, List.map_map]
        rfl
      have hndsts : (sts.map (·.stop_sequence)).Nodup := by
        rw [hseq]
        exact hperm.nodup_iff.mpr (hrows ▸ hnd)
      have hne : sts.Pairwise (fun a b => a.stop_sequence ≠ b.stop_sequence) :=
        List.pairwise_map.mp hndsts
      exact (hle.and hne).imp fun h => lt_of_le_of_ne h.1 h.2
    · intro hso
      refine pairwise_of_chain' ?_ ?_
      · intro a b c hab hbc
        exact le_trans hab hbc
      rw [← hsts]
      cases hins : (p :: ps).insertionSort byStopSeqLe with
      | nil => exact List.chain'_nil
      | cons first rest =>
        simp only [computeStopDistances]
        exact stLoop_chain_sdt hav hnn stops hso rest first _

/-- Witness for C7: a trip of `plainStopTimeRows` (no shape, unresolvable
stops), loaded with the zero distance function. -/
theorem C7_sorted_sequences_witness :
    mget (loadStopTimes (fun _ _ _ _ => 0) [] [] [] plainStopTimeRows) "t1" =
      some [mkStopTime (rawOfStopTimeRow
          (blankStopTimeRow "t1" "s1" "08:00:00" "08:00:00" 1 "")) 0,
        mkStopTime (rawOfStopTimeRow
          (blankStopTimeRow "t1" "s2" "08:10:00" "08:10:00" 2 "")) 0] ∧
    ([mkStopTime (rawOfStopTimeRow
        (blankStopTimeRow "t1" "s1" "08:00:00" "08:00:00" 1 "")) 0,
      mkStopTime (rawOfStopTimeRow
        (blankStopTimeRow "t1" "s2" "08:10:00" "08:10:00" 2 "")) 0] :
        List StopTime).Pairwise
      (fun a b => a.stop_sequence ≤ b.stop_sequence) := by
  have h : mget (loadStopTimes (fun _ _ _ _ => 0) [] [] [] plainStopTimeRows)
      "t1" = some [mkStopTime (rawOfStopTimeRow
        (blankStopTimeRow "t1" "s1" "08:00:00" "08:00:00" 1 "")) 0,
      mkStopTime (rawOfStopTimeRow
        (blankStopTimeRow "t1" "s2" "08:10:00" "08:10:00" 2 "")) 0] := by
    decide
  exact ⟨h, (C7_sorted_sequences (fun _ _ _ _ => 0)
    (fun _ _ _ _ => le_refl 0) [] [] [] plainStopTimeRows "t1" _ h).1⟩

/-- The chain of adjacent-sum equalities produced by the cumulative-distance
pass. -/
theorem distLoop_chain (hav : ℚ → ℚ → ℚ → ℚ → ℚ) :
    ∀ (rest : List RawShapePoint) (prev : RawShapePoint) (prevD : ℚ)
      (pp : ShapePoint), pp.lat = prev.lat → pp.lon = prev.lon →
      pp.distance = prevD →
      (pp :: distLoop hav prev prevD rest).Chain'
        (fun a b => b.distance = a.distance + hav a.lat a.lon b.lat b.lon)
  | [], _, _, _, _, _, _ => List.chain'_singleton _
  | q :: rest, prev, prevD, pp, hlat, hlon, hd => by
    rw [distLoop, List.chain'_cons]
    constructor
    · simp only [hlat, hlon, hd]
    · exact distLoop_chain hav rest q
        (prevD + hav prev.lat prev.lon q.lat q.lon) _ rfl rfl rfl

/-- **C8.** Every loaded shape's points start at cumulative distance 0, each
later point's distance is its predecessor's plus the (abstract, nonnegative —
see `haversineReal_nonneg`) haversine between the two points in
`shape_pt_sequence` order, and the distances are non-decreasing. -/
theorem C8_cumulative_distances (hav : ℚ → ℚ → ℚ → ℚ → ℚ)
    (hnn : ∀ a b c d, 0 ≤ hav a b c d) (rows : List ShapeRow) (sid : String)
    (pts : List ShapePoint) (h : mget (loadShapes hav rows) sid = some pts) :
    (∀ q qs, pts = q :: qs → q.distance = 0) ∧
    pts.Chain' (fun a b => b.distance = a.distance + hav a.lat a.lon b.lat b.lon) ∧
    pts.Pairwise (fun a b => a.distance ≤ b.distance) := by
  rw [mget_loadShapes] at h
  cases hfl : (rows.filter fun r => r.shape_id == sid).map pointOfShapeRow with
  | nil => rw [hfl] at h; exact Option.noConfusion h
  | cons p ps =>
    rw [hfl] at h
    rw [Option.some_inj] at h
    have hchain : pts.Chain'
        (fun a b => b.distance = a.distance + hav a.lat a.lon b.lat b.lon) := by
      rw [← h]
      cases hins : (p :: ps).insertionSort bySeqLe with
      | nil => exact List.chain'_nil
      | cons q qs =>
        simp only [computeDistances]
        exact distLoop_chain hav qs q 0 _ rfl rfl rfl
    refine ⟨?_, hchain, ?_⟩
    · intro q qs hq
      rw [← h] at hq
      cases hins : (p :: ps).insertionSort bySeqLe with
      | nil =>
        rw [hins] at hq
        exact absurd hq (by simp [computeDistances])
      | cons r rs =>
        rw [hins] at hq
        simp only [computeDistances] at hq
        rw [List.cons.injEq] at hq
        rw [← hq.1]
    · refine pairwise_of_chain' ?_ ?_
      · intro a b c hab hbc
        exact le_trans hab hbc
      · refine List.Chain'.imp ?_ hchain
        intro a b hab
        rw [hab]
        exact le_add_of_nonneg_right (hnn _ _ _ _)

/-- Witness for C8: the two-point shape of `projFeed` loaded with the
constant-1 distance function. -/
theorem C8_cumulative_distances_witness :
    mget (loadShapes (fun _ _ _ _ => 1) projFeed.shapeRows) "sh" =
      some [⟨0, 0, 1, 0⟩, ⟨0, 1, 2, 1⟩] ∧
    ([⟨0, 0, 1, 0⟩, ⟨0, 1, 2, 1⟩] : List ShapePoint).Pairwise
      (fun a b => a.distance ≤ b.distance) := by
  have h : mget (loadShapes (fun _ _ _ _ => 1) projFeed.shapeRows) "sh" =
      some [⟨0, 0, 1, 0⟩, ⟨0, 1, 2, 1⟩] := by
    simp [loadShapes, projFeed, mpush, mget, pointOfShapeRow, blankShapeRow,
      computeDistances, distLoop, bySeqLe]
  exact ⟨h, (C8_cumulative_distances (fun _ _ _ _ => 1)
    (fun _ _ _ _ => zero_le_one) projFeed.shapeRows "sh" _ h).2.2⟩

/-- The shape loader never reads the rows' `shape_dist_traveled` column. -/
theorem loadShapes_scrub (hav : ℚ → ℚ → ℚ → ℚ → ℚ) (rows : List ShapeRow) :
    loadShapes hav (rows.map scrubShapeRow) = loadShapes hav rows := by
  unfold loadShapes
  rw [List.foldl_map]
  rfl

/-- The stop-times loader never reads the rows' `shape_dist_traveled`
column. -/
theorem loadStopTimes_scrub (hav : ℚ → ℚ → ℚ → ℚ → ℚ)
    (trips : List (String × Trip)) (stops : List (String × Stop))
    (shapes : List (String × List ShapePoint)) (rows : List StopTimeRow) :
    loadStopTimes hav trips stops shapes (rows.map scrubStopTimeRow) =
      loadStopTimes hav trips stops shapes rows := by
  unfold loadStopTimes
  rw [List.foldl_map]
  rfl

/-- Scrubbing the `shape_dist_traveled` columns does not change the built
dataset. -/
theorem buildDataset_scrub (hav : ℚ → ℚ → ℚ → ℚ → ℚ) (f : RawFeed) :
    buildDataset hav (scrubFeed f) = buildDataset hav f := by
  unfold buildDataset scrubFeed
  dsimp only
  rw [loadShapes_scrub, loadStopTimes_scrub]

/-- **C9.** The built dataset is independent of the source feed's
`shape_dist_traveled` columns: feeds equal after erasing those columns build
identical datasets — every distance field is recomputed from geometry. -/
theorem C9_sdt_independence (hav : ℚ → ℚ → ℚ → ℚ → ℚ) (f1 f2 : RawFeed)
    (h : scrubFeed f1 = scrubFeed f2) :
    buildDataset hav f1 = buildDataset hav f2 := by
  rw [← buildDataset_scrub hav f1, ← buildDataset_scrub hav f2, h]

/-- Witness for C9: `sdtFeedA` and `sdtFeedB` differ only in their
`shape_dist_traveled` strings, and build the same dataset. -/
theorem C9_sdt_independence_witness :
    scrubFeed sdtFeedA = scrubFeed sdtFeedB ∧
      buildDataset sqDist sdtFeedA = buildDataset sqDist sdtFeedB :=
  ⟨by decide, C9_sdt_independence sqDist sdtFeedA sdtFeedB (by decide)⟩

end GTFS
